import Mathlib

/-!
# The weather scaler (`weather_scaler.go`)

A shallow embedding of the KEDA weather scaler and the properties of its
metadata validation, fetch, decode and metric shaping.

Conventions of the embedding:

* a Go `string` is a Lean `String`, processed as its list of characters; the
  library routines below only test ASCII characters, for which a test on the
  characters of a UTF-8 string agrees with the test on its bytes;
* Go `int` and `int64` are 64-bit; a value of these types is an `Int`, and the
  places where the range matters reduce it explicitly;
* a Go `(value, error)` result whose value is meaningless on error is an
  `Except`; where the source returns a meaningful value next to the error
  (`GetWeather`), the pair is kept, with `Option` for the `error`;
* a run-time panic is an explicit outcome (`Exec.panic`);
* logging (`weatherLog.Error`) has no effect on any returned value and is left
  out.
-/

namespace WeatherScaler

deriving instance DecidableEq for Except

/-! ## `strconv.Atoi` (Go standard library) -/

namespace strconv

/-- The two sentinel errors of package `strconv`. -/
inductive ErrKind where
  | ErrSyntax
  | ErrRange
  deriving DecidableEq, Repr

/-- The `*strconv.NumError` of a failed conversion. -/
structure NumError where
  Func : String
  Num : String
  Err : ErrKind
  deriving DecidableEq, Repr

/-- The size in bits of an `int`. -/
def intSize : Nat := 64

/-- The largest `uint64`. -/
def maxUint64 : Nat := 2 ^ 64 - 1

/-- The test `'0' <= c && c <= '9'`. -/
def isDigit (c : Char) : Bool := decide ('0'.toNat ≤ c.toNat) && decide (c.toNat ≤ '9'.toNat)

/-- The value `c - '0'` of a digit. -/
def digitVal (c : Char) : Nat := c.toNat - '0'.toNat

/-- The loop of `ParseUint(s, 10, 64)` over the remaining characters, `n` being
the number accumulated so far: a character that is no decimal digit is a syntax
error, an accumulator that leaves the `uint64` range a range error. -/
def parseUintLoop : List Char → Nat → Except ErrKind Nat
  | [], n => .ok n
  | c :: cs, n =>
    if !isDigit c then .error .ErrSyntax
    else if n ≥ maxUint64 / 10 + 1 then .error .ErrRange
    else
      let n10 := n * 10
      let n1 := (n10 + digitVal c) % 2 ^ 64
      if n1 < n10 ∨ n1 > maxUint64 then .error .ErrRange
      else parseUintLoop cs n1

/-- The call `ParseUint(s, 10, 64)`: the empty string is a syntax error. -/
def ParseUint (s : List Char) : Except ErrKind Nat :=
  match s with
  | [] => .error .ErrSyntax
  | _ => parseUintLoop s 0

/-- The call `ParseInt(s, 10, 0)`: an optional sign, then `ParseUint`; the magnitude is
checked against `1 << 63`. -/
def ParseInt (s : List Char) : Except ErrKind Int :=
  match s with
  | [] => .error .ErrSyntax
  | c :: cs =>
    let neg := c == '-'
    let rest := if c == '+' then cs else if c == '-' then cs else s
    match ParseUint rest with
    | .error e => .error e
    | .ok un =>
      let cutoff : Nat := 2 ^ (intSize - 1)
      if !neg ∧ un ≥ cutoff then .error .ErrRange
      else if neg ∧ un > cutoff then .error .ErrRange
      else .ok (if neg then -(un : Int) else (un : Int))

/-- The digit loop of the fast path of `Atoi`. -/
def atoiFastLoop : List Char → Nat → Option Nat
  | [], n => some n
  | c :: cs, n => if isDigit c then atoiFastLoop cs (n * 10 + digitVal c) else none

/-- The fast path of `Atoi`, taken for strings of 1 to 18 bytes. -/
def atoiFast (s : List Char) : Except ErrKind Int :=
  match s with
  | [] => .error .ErrSyntax
  | c :: cs =>
    let signed := c == '-' || c == '+'
    let digits := if signed then cs else s
    if signed ∧ digits.length < 1 then .error .ErrSyntax
    else
      match atoiFastLoop digits 0 with
      | none => .error .ErrSyntax
      | some n => .ok (if c == '-' then -(n : Int) else (n : Int))

/-- The function `strconv.Atoi`: the fast path for short strings, `ParseInt(s, 10, 0)`
otherwise; the error names `Atoi` and the input. -/
def Atoi (s : String) : Except NumError Int :=
  let sLen := s.utf8ByteSize
  let r := if 0 < sLen ∧ sLen < 19 then atoiFast s.data else ParseInt s.data
  match r with
  | .ok n => .ok n
  | .error k => .error { Func := "Atoi", Num := s, Err := k }

end strconv

/-! ## `fmt.Sprintf` (Go standard library), for string operands -/

namespace fmt

/-- The text `%!(EXTRA string=a, string=b)` that `doPrintf` appends for the
operands no directive consumed (all operands here are strings). -/
def extraArgs (a : List String) : List Char :=
  "%!(EXTRA ".data ++
    List.intercalate ", ".data (a.map fun arg => "string=".data ++ arg.data) ++ ")".data

/-- What `doPrintf` does once the format is exhausted: operands left over are
reported. -/
def finish (a : List String) (argNum : Nat) : List Char :=
  if argNum < a.length then extraArgs (a.drop argNum) else []

/-- The loop of `doPrintf` over the remaining format, for string operands `a`,
`argNum` of which are consumed. Modelled directives: literal text, `%%`, the
plain verbs `%s` and `%v` (the operand itself, or `%!s(MISSING)` when the
operands are used up) and a lone `%` at the end (`%!(NOVERB)`). For any other
character after `%` (flags, width, precision, argument index, other verbs)
the remaining output is `other`, a function of the remaining format, the
operands and `argNum`, which is all the state `doPrintf` has at that point. -/
def doPrintf (other : List Char → List String → Nat → List Char) (a : List String) :
    List Char → Nat → List Char
  | [], argNum => finish a argNum
  | c :: rest, argNum =>
    if c ≠ '%' then c :: doPrintf other a rest argNum
    else
      match rest with
      | [] => "%!(NOVERB)".data ++ finish a argNum
      | verb :: rest' =>
        if verb = '%' then '%' :: doPrintf other a rest' argNum
        else if verb = 's' ∨ verb = 'v' then
          match a.get? argNum with
          | some arg => arg.data ++ doPrintf other a rest' (argNum + 1)
          | none => "%!".data ++ verb :: "(MISSING)".data ++ doPrintf other a rest' argNum
        else other rest a argNum

/-- The function `fmt.Sprintf(format, a...)` for string operands. -/
def Sprintf (other : List Char → List String → Nat → List Char) (format : String)
    (a : List String) : String :=
  String.mk (doPrintf other a format.data 0)

end fmt

/-! ## `url.ParseRequestURI` (Go standard library, package `net/url`)

Only the error result is modelled: `ParseWeatherMetadata` discards the parsed
URL. -/

namespace url

/-- The errors `parse` can return for a request URI. -/
inductive ParseErr where
  /-- The error "net/url: invalid control character in URL". -/
  | invalidControlCharacter
  /-- The error "empty url". -/
  | emptyURL
  /-- The error "missing protocol scheme". -/
  | missingProtocolScheme
  /-- The error "invalid URI for request". -/
  | invalidURIForRequest
  /-- An `EscapeError`: a malformed or forbidden `%` escape. -/
  | EscapeError (s : String)
  /-- An `InvalidHostError`: a character that may not occur in a host. -/
  | InvalidHostError (s : String)
  /-- The error "net/url: invalid userinfo". -/
  | invalidUserinfo
  /-- The error "invalid port ... after host". -/
  | invalidPort (colonPort : String)
  /-- The error "missing ']' in host". -/
  | missingBracket
  deriving DecidableEq, Repr

/-- The `*url.Error` returned by `ParseRequestURI`. -/
structure Error where
  Op : String
  URL : String
  Err : ParseErr
  deriving DecidableEq, Repr

/-- The escaping modes of `unescape` that `parse` uses. -/
inductive encoding where
  | encodePath
  | encodeHost
  | encodeZone
  | encodeUserPassword
  deriving DecidableEq, Repr

/-- The test of `stringContainsCTLByte`: a byte below space, or DEL. -/
def stringContainsCTLByte (s : List Char) : Bool :=
  s.any fun c => decide (c.toNat < 32) || decide (c.toNat = 127)

/-- An ASCII letter. -/
def isLetter (c : Char) : Bool :=
  (decide ('a'.toNat ≤ c.toNat) && decide (c.toNat ≤ 'z'.toNat)) ||
    (decide ('A'.toNat ≤ c.toNat) && decide (c.toNat ≤ 'Z'.toNat))

/-- An ASCII decimal digit. -/
def isDigit (c : Char) : Bool := decide ('0'.toNat ≤ c.toNat) && decide (c.toNat ≤ '9'.toNat)

/-- The test `ishex`. -/
def ishex (c : Char) : Bool :=
  isDigit c || (decide ('a'.toNat ≤ c.toNat) && decide (c.toNat ≤ 'f'.toNat)) ||
    (decide ('A'.toNat ≤ c.toNat) && decide (c.toNat ≤ 'F'.toNat))

/-- The value `unhex` of a hexadecimal digit. -/
def unhex (c : Char) : Nat :=
  if isDigit c then c.toNat - '0'.toNat
  else if decide ('a'.toNat ≤ c.toNat) && decide (c.toNat ≤ 'f'.toNat) then c.toNat - 'a'.toNat + 10
  else if decide ('A'.toNat ≤ c.toNat) && decide (c.toNat ≤ 'F'.toNat) then c.toNat - 'A'.toNat + 10
  else 0

/-- The loop of `getScheme`: `seen` is the text before the current character
(so `seen = []` is the test `i == 0`), `rawURL` the whole input. The result is
the scheme and the text after its colon, or no scheme and the whole input. -/
def getSchemeLoop (rawURL : List Char) : List Char → List Char →
    Except ParseErr (List Char × List Char)
  | _, [] => .ok ([], rawURL)
  | seen, c :: cs =>
    if isLetter c then getSchemeLoop rawURL (seen ++ [c]) cs
    else if isDigit c || c == '+' || c == '-' || c == '.' then
      if seen = [] then .ok ([], rawURL) else getSchemeLoop rawURL (seen ++ [c]) cs
    else if c == ':' then
      if seen = [] then .error .missingProtocolScheme else .ok (seen, cs)
    else .ok ([], rawURL)

/-- The function `getScheme`. -/
def getScheme (rawURL : List Char) : Except ParseErr (List Char × List Char) :=
  getSchemeLoop rawURL [] rawURL

/-- The function `shouldEscape(c, encodeHost)`, on the code `c` of a byte:
letters, digits, the sub-delimiters a host may hold and the unreserved marks
need no escape, everything else does. -/
def shouldEscapeHost (c : Nat) : Bool :=
  !(((decide (97 ≤ c) && decide (c ≤ 122)) || (decide (65 ≤ c) && decide (c ≤ 90)) ||
      (decide (48 ≤ c) && decide (c ≤ 57))) ||
    [33, 36, 38, 39, 40, 41, 42, 43, 44, 59, 61, 58, 91, 93, 60, 62, 34].contains c ||
    [45, 95, 46, 126].contains c)

/-- The validation that `unescape(s, mode)` performs; the unescaped text itself
is not needed. A `%` must be followed by two hexadecimal digits; in a host only
`%25` and escapes of non-ASCII bytes are allowed, in a zone only escapes of
bytes a host may hold, of space and `%25`; outside escapes, a host or zone
holds no ASCII character that would need escaping. -/
def unescape (mode : encoding) : List Char → Except ParseErr Unit
  | [] => .ok ()
  | c :: rest =>
    if c = '%' then
      match rest with
      | h1 :: h2 :: rest' =>
        if !ishex h1 || !ishex h2 then .error (.EscapeError (String.mk ((c :: rest).take 3)))
        else if mode = .encodeHost ∧ unhex h1 < 8 ∧ [c, h1, h2] ≠ "%25".data then
          .error (.EscapeError (String.mk [c, h1, h2]))
        else if mode = .encodeZone ∧ [c, h1, h2] ≠ "%25".data ∧
            unhex h1 * 16 + unhex h2 ≠ 32 ∧ shouldEscapeHost (unhex h1 * 16 + unhex h2) then
          .error (.EscapeError (String.mk [c, h1, h2]))
        else unescape mode rest'
      | _ => .error (.EscapeError (String.mk ((c :: rest).take 3)))
    else if (mode = .encodeHost ∨ mode = .encodeZone) ∧ c.toNat < 128 ∧
        shouldEscapeHost c.toNat then
      .error (.InvalidHostError (String.mk [c]))
    else unescape mode rest

/-- The function `validOptionalPort`: empty, or a colon followed by digits. -/
def validOptionalPort (port : List Char) : Bool :=
  match port with
  | [] => true
  | c :: ds => c == ':' && ds.all isDigit

/-- The function `validUserinfo`. -/
def validUserinfo (s : List Char) : Bool :=
  s.all fun r => isLetter r || isDigit r ||
    [45, 46, 95, 58, 126, 33, 36, 38, 39, 40, 41, 42, 43, 44, 59, 61, 37, 64].contains r.toNat

/-- The index of the last occurrence of `c` in `s` (`strings.LastIndex`). -/
def lastIndex (s : List Char) (c : Char) : Option Nat :=
  match s.reverse.indexOf? c with
  | some j => some (s.length - 1 - j)
  | none => none

/-- The index of the first occurrence of `sub` in `s` (`strings.Index`). -/
def index (sub : List Char) : List Char → Option Nat
  | [] => if sub = [] then some 0 else none
  | c :: cs =>
    if sub.isPrefixOf (c :: cs) then some 0
    else (index sub cs).map (· + 1)

/-- The function `parseHost`. -/
def parseHost (host : List Char) : Except ParseErr Unit :=
  if host.head? = some '[' then
    match lastIndex host ']' with
    | none => .error .missingBracket
    | some i =>
      let colonPort := host.drop (i + 1)
      if !validOptionalPort colonPort then .error (.invalidPort (String.mk colonPort))
      else
        match index "%25".data (host.take i) with
        | some zone =>
          match unescape .encodeHost (host.take zone) with
          | .error e => .error e
          | .ok _ =>
            match unescape .encodeZone ((host.take i).drop zone) with
            | .error e => .error e
            | .ok _ => unescape .encodeHost (host.drop i)
        | none => unescape .encodeHost host
  else
    match lastIndex host ':' with
    | some i =>
      let colonPort := host.drop i
      if !validOptionalPort colonPort then .error (.invalidPort (String.mk colonPort))
      else unescape .encodeHost host
    | none => unescape .encodeHost host

/-- The function `parseAuthority`: the host after the last `@`, then the
user information before it. -/
def parseAuthority (authority : List Char) : Except ParseErr Unit :=
  match lastIndex authority '@' with
  | none => parseHost authority
  | some i =>
    match parseHost (authority.drop (i + 1)) with
    | .error e => .error e
    | .ok _ =>
      let userinfo := authority.take i
      if !validUserinfo userinfo then .error .invalidUserinfo
      else if !userinfo.contains ':' then unescape .encodeUserPassword userinfo
      else
        match unescape .encodeUserPassword (userinfo.takeWhile (· ≠ ':')) with
        | .error e => .error e
        | .ok _ => unescape .encodeUserPassword ((userinfo.dropWhile (· ≠ ':')).drop 1)

/-- The function `parse(rawURL, viaRequest)` with `viaRequest = true`. After
the scheme, the query (the text from the first `?` on) is split off; a rest
that does not start with `/` is opaque when there is a scheme and an error
otherwise; with a scheme, a rest starting with `//` has an authority, up to
the next `/`; what remains is the path. -/
def parse (rawURL : List Char) : Except ParseErr Unit :=
  if stringContainsCTLByte rawURL then .error .invalidControlCharacter
  else if rawURL = [] then .error .emptyURL
  else if rawURL = ['*'] then .ok ()
  else
    match getScheme rawURL with
    | .error e => .error e
    | .ok (scheme, afterScheme) =>
      let rest := afterScheme.takeWhile (· ≠ '?')
      if rest.head? ≠ some '/' then
        if scheme ≠ [] then .ok () else .error .invalidURIForRequest
      else if scheme ≠ [] ∧ "//".data.isPrefixOf rest then
        let authority := (rest.drop 2).takeWhile (· ≠ '/')
        let path := (rest.drop 2).dropWhile (· ≠ '/')
        match parseAuthority authority with
        | .error e => .error e
        | .ok _ => unescape .encodePath path
      else unescape .encodePath rest

/-- The function `url.ParseRequestURI`: `parse` for a request, the error
wrapped in a `*url.Error` naming the operation and the input. -/
def ParseRequestURI (rawURL : String) : Except Error Unit :=
  match parse rawURL.data with
  | .ok _ => .ok ()
  | .error e => .error { Op := "parse", URL := rawURL, Err := e }

end url

/-! ## The configuration and `ParseWeatherMetadata` -/

/-- Modelled from the spec: the type `ScalerConfig` is declared elsewhere in
the package; the scaler reads its trigger metadata, "a mapping of string keys
to string values", and the global HTTP timeout. A Go map is its lookup
function. -/
structure ScalerConfig where
  TriggerMetadata : String → Option String
  GlobalHTTPTimeout : Nat

/-- The Go expression `m[key]` on a `map[string]string`: the value, or the
empty string for an absent key. -/
def mapIndex (m : String → Option String) (key : String) : String :=
  (m key).getD ""

/-- The struct `weatherMetadata`. -/
structure weatherMetadata where
  thresholdValue : Int
  host : String
  cityName : String
  apiKey : String
  preference : String
  deriving DecidableEq, Repr

/-- The errors that `ParseWeatherMetadata` builds with `fmt.Errorf`, one per
call site, with the library error that two of them render into their text. -/
inductive MetadataError where
  /-- The error "Error parsing threshold value: %s". -/
  | thresholdValue (err : strconv.NumError)
  /-- The error "No city name given". -/
  | noCityName
  /-- The error "No API key given". -/
  | noAPIKey
  /-- The error "Invalid URL: %s". -/
  | invalidURL (err : url.Error)
  /-- The error "No host URI given". -/
  | noHost
  /-- The error "No preference given". -/
  | noPreference
  deriving DecidableEq, Repr

/-- The text of a `MetadataError` (its method `Error()`), given the texts
`numError` and `urlError` of the library errors. -/
def MetadataError.Error (numError : strconv.NumError → String) (urlError : url.Error → String) :
    MetadataError → String
  | .thresholdValue err => "Error parsing threshold value: " ++ numError err
  | .noCityName => "No city name given"
  | .noAPIKey => "No API key given"
  | .invalidURL err => "Invalid URL: " ++ urlError err
  | .noHost => "No host URI given"
  | .noPreference => "No preference given"

/-- The first step of `ParseWeatherMetadata`: a `thresholdValue` that is
present and not empty goes through `strconv.Atoi`; otherwise the threshold
keeps the zero value of `weatherMetadata{}`. -/
def parseThreshold (config : ScalerConfig) : Except MetadataError Int :=
  match config.TriggerMetadata "thresholdValue" with
  | some val =>
    if val ≠ "" then
      match strconv.Atoi val with
      | .error err => .error (.thresholdValue err)
      | .ok thresholdValue => .ok thresholdValue
    else .ok 0
  | none => .ok 0

/-- The function `ParseWeatherMetadata`. The parameter `other` is the part of
`fmt.Sprintf` left open (see `fmt.doPrintf`). -/
def ParseWeatherMetadata (other : List Char → List String → Nat → List Char)
    (config : ScalerConfig) : Except MetadataError weatherMetadata :=
  match parseThreshold config with
  | .error e => .error e
  | .ok thresholdValue =>
    if mapIndex config.TriggerMetadata "cityName" = "" then .error .noCityName
    else
      let cityName := mapIndex config.TriggerMetadata "cityName"
      if mapIndex config.TriggerMetadata "apiKey" = "" then .error .noAPIKey
      else
        let apiKey := mapIndex config.TriggerMetadata "apiKey"
        match config.TriggerMetadata "host" with
        | some val =>
          let urlString := fmt.Sprintf other val [cityName, apiKey]
          match url.ParseRequestURI urlString with
          | .error err => .error (.invalidURL err)
          | .ok _ =>
            if mapIndex config.TriggerMetadata "preference" = "" then .error .noPreference
            else
              .ok { thresholdValue := thresholdValue, host := urlString, cityName := cityName,
                    apiKey := apiKey, preference := mapIndex config.TriggerMetadata "preference" }
        | none => .error .noHost

/-- The threshold entry of a mapping is acceptable: the key is absent, or its
value is empty or an integer for `strconv.Atoi`. -/
def thresholdAcceptable (config : ScalerConfig) : Prop :=
  match config.TriggerMetadata "thresholdValue" with
  | none => True
  | some val => val = "" ∨ ∃ n, strconv.Atoi val = .ok n

/-- A mapping given by a list of key/value pairs (the first pair of a key
counts). -/
def mapOf (kvs : List (String × String)) : String → Option String :=
  fun key => (kvs.find? fun kv => kv.1 == key).map Prod.snd

/-! ## The scaler and its operations -/

/-- The outcome of running Go code: it returns, or the goroutine panics. -/
inductive Exec (α : Type) where
  | ret (a : α)
  | panic (msg : String)
  deriving DecidableEq, Repr

/-- An `error` value produced by the network stack or by `encoding/json`,
known by its text. -/
structure GoError where
  msg : String
  deriving DecidableEq, Repr

/-- A `[]byte`. -/
abbrev Bytes := List UInt8

/-- An `*http.Response`, known by what `ioutil.ReadAll(res.Body)` returns: the
bytes read, and the error that stopped the read, if any. -/
structure Response where
  ReadAll : Bytes × Option GoError
  deriving DecidableEq, Repr

/-- An `*http.Client`, known by what `Get(url)` returns: the Go pair of a
response (or nil) and an error (or nil). A transport failure returns no
response. -/
structure Client where
  Get : String → Option Response × Option GoError

/-- The struct `weatherScaler`. -/
structure weatherScaler where
  metadata : weatherMetadata
  httpClient : Client

/-- A finite `float64`, the number `mant * 2 ^ exp`. The values that
`encoding/json` stores are finite: JSON has no literal for an infinity or a
NaN, and a number too large for a `float64` is a decoding error. -/
structure float64 where
  mant : Int
  exp : Int
  deriving DecidableEq, Repr

/-- The anonymous struct of the field `Main` of `WeatherData`. -/
structure WeatherMain where
  Temp_min : float64
  Temp_max : float64
  Temp : float64
  deriving DecidableEq, Repr

/-- The struct `WeatherData`. -/
structure WeatherData where
  Main : WeatherMain
  deriving DecidableEq, Repr

/-- The zero value of `WeatherData` (`var data WeatherData`). -/
def WeatherData.zero : WeatherData :=
  { Main := { Temp_min := ⟨0, 0⟩, Temp_max := ⟨0, 0⟩, Temp := ⟨0, 0⟩ } }

/-- The behaviour of the Go run time that the scaler relies on and this
development leaves open: the two phases of `json.Unmarshal` into a
`*WeatherData` (the well-formedness scan and the decoding proper, which returns
the value stored and the error reported) and the result of converting to `int`
a `float64` whose integer part no `int` represents, which the Go specification
leaves to the implementation. -/
structure Runtime where
  checkValid : Bytes → Option GoError
  unmarshal : Bytes → WeatherData → WeatherData × Option GoError
  intOutOfRange : float64 → Int

/-- The function `json.Unmarshal(data, &v)`: input that is not well-formed JSON
is rejected before anything is stored; otherwise the input is decoded into
`v`. The result is the value of `v` afterwards and the error returned. -/
def json.Unmarshal (rt : Runtime) (data : Bytes) (v : WeatherData) :
    WeatherData × Option GoError :=
  match rt.checkValid data with
  | some err => (v, some err)
  | none => rt.unmarshal data v

/-- The smallest `int`. -/
def minInt : Int := -(2 ^ 63)

/-- The largest `int`. -/
def maxInt : Int := 2 ^ 63 - 1

/-- The integer part of a `float64`, rounding toward zero. -/
def truncate (f : float64) : Int :=
  if 0 ≤ f.exp then f.mant * 2 ^ f.exp.toNat else Int.tdiv f.mant (2 ^ (-f.exp).toNat)

/-- The reduction of an integer to the range of `int` (two's complement). -/
def wrapInt (n : Int) : Int := (n - minInt) % 2 ^ 64 + minInt

/-- The Go conversion `int(f)` of a `float64`: the integer part when an `int`
represents it, an implementation-dependent `int` otherwise. -/
def floatToInt (rt : Runtime) (f : float64) : Int :=
  if minInt ≤ truncate f ∧ truncate f ≤ maxInt then truncate f
  else wrapInt (rt.intOutOfRange f)

/-- The method `GetJSONData`. An error of `Get` is only logged; the body of
the response is then read whatever `Get` returned, which dereferences a nil
response when there is none. The result is the pair `(jsonBlob, err)` of
`ioutil.ReadAll`. -/
def GetJSONData (s : weatherScaler) : Exec (Bytes × Option GoError) :=
  match s.httpClient.Get s.metadata.host with
  | (none, _) => .panic "runtime error: invalid memory address or nil pointer dereference"
  | (some res, _) => .ret res.ReadAll

/-- The `switch` of `GetWeather` on the preference, `tmpr` starting at zero. -/
def selectTemperature (rt : Runtime) (preference : String) (data : WeatherData) : Int :=
  if preference = "Temp_min" then floatToInt rt data.Main.Temp_min
  else if preference = "Temp_max" then floatToInt rt data.Main.Temp_max
  else if preference = "Temp" then floatToInt rt data.Main.Temp
  else 0

/-- The method `GetWeather`: the Go pair `(int, error)`. The error that
`json.Unmarshal` returns is dropped. -/
def GetWeather (rt : Runtime) (s : weatherScaler) : Exec (Int × Option GoError) :=
  match GetJSONData s with
  | .panic msg => .panic msg
  | .ret (_, some err) => .ret (100, some err)
  | .ret (jsonBlob, none) =>
    let data := (json.Unmarshal rt jsonBlob WeatherData.zero).1
    .ret (selectTemperature rt s.metadata.preference data, none)

/-- The method `IsActive` (the context argument is not used). -/
def IsActive (rt : Runtime) (s : weatherScaler) : Exec (Bool × Option GoError) :=
  match GetWeather rt s with
  | .panic msg => .panic msg
  | .ret (_, some err) => .ret (false, some err)
  | .ret (tmpr, none) => .ret (decide (tmpr > s.metadata.thresholdValue), none)

/-- The formats of a `resource.Quantity`. -/
inductive Format where
  | DecimalExponent
  | BinarySI
  | DecimalSI
  deriving DecidableEq, Repr

/-- A `resource.Quantity` holding an `int64` amount. -/
structure Quantity where
  value : Int
  format : Format
  deriving DecidableEq, Repr

/-- The function `resource.NewQuantity`. -/
def NewQuantity (value : Int) (format : Format) : Quantity := { value := value, format := format }

/-- The type `v2beta2.MetricSourceType`. -/
inductive MetricSourceType where
  | Object
  | Pods
  | Resource
  | ContainerResource
  | External
  deriving DecidableEq, Repr

/-- The type `v2beta2.MetricTargetType`. -/
inductive MetricTargetType where
  | Utilization
  | Value
  | AverageValue
  deriving DecidableEq, Repr

/-- The struct `v2beta2.MetricIdentifier`. -/
structure MetricIdentifier where
  Name : String
  Selector : Option (List (String × String)) := none
  deriving DecidableEq, Repr

/-- The struct `v2beta2.MetricTarget` (`Type_` is its field `Type`). -/
structure MetricTarget where
  Type_ : MetricTargetType
  Value : Option Quantity := none
  AverageValue : Option Quantity := none
  AverageUtilization : Option Int := none
  deriving DecidableEq, Repr

/-- The struct `v2beta2.ExternalMetricSource`. -/
structure ExternalMetricSource where
  Metric : MetricIdentifier
  Target : MetricTarget
  deriving DecidableEq, Repr

/-- The struct `v2beta2.MetricSpec` (`Type_` is its field `Type`), with the
source the scaler sets; the other sources stay nil. -/
structure MetricSpec where
  Type_ : MetricSourceType
  External : Option ExternalMetricSource := none
  deriving DecidableEq, Repr

/-- Modelled from the spec: the constant `externalMetricType` is declared
elsewhere in the package; the specification built is "a single external-metric
specification". -/
def externalMetricType : MetricSourceType := .External

/-- The method `GetMetricSpecForScaling`. -/
def GetMetricSpecForScaling (s : weatherScaler) : List MetricSpec :=
  let targetMetricValue := NewQuantity s.metadata.thresholdValue .DecimalSI
  let externalMetric : ExternalMetricSource :=
    { Metric := { Name := "weather" },
      Target := { Type_ := .AverageValue, AverageValue := some targetMetricValue } }
  let metricSpec : MetricSpec := { External := some externalMetric, Type_ := externalMetricType }
  [metricSpec]

/-- The struct `external_metrics.ExternalMetricValue`, with the fields the
scaler sets. -/
structure ExternalMetricValue where
  MetricName : String
  Value : Quantity
  Timestamp : Nat
  deriving DecidableEq, Repr

/-- The method `GetMetrics` (the context argument is not used); `now` is the
reading of the clock, `metav1.Now()`. -/
def GetMetrics (rt : Runtime) (now : Nat) (s : weatherScaler) (metricName : String)
    (_metricSelector : List (String × String)) :
    Exec (List ExternalMetricValue × Option GoError) :=
  match GetWeather rt s with
  | .panic msg => .panic msg
  | .ret (_, some err) => .ret ([], some err)
  | .ret (tmpr, none) =>
    let metric : ExternalMetricValue :=
      { MetricName := metricName, Value := NewQuantity tmpr .DecimalSI, Timestamp := now }
    .ret ([] ++ [metric], none)

/-- The method `Close`. -/
def Close (_s : weatherScaler) : Option GoError := none

/-- The error that `NewWeatherScaler` builds with `fmt.Errorf` around the
error of `ParseWeatherMetadata` ("Error parsing weather metadata: %s"). -/
inductive ScalerError where
  | parsingMetadata (err : MetadataError)
  deriving DecidableEq, Repr

/-- The text of a `ScalerError`: the verb `%s` prints the text of the wrapped
error. -/
def ScalerError.Error (numError : strconv.NumError → String) (urlError : url.Error → String) :
    ScalerError → String
  | .parsingMetadata err => "Error parsing weather metadata: " ++ err.Error numError urlError

/-- The function `NewWeatherScaler`. The parameter `CreateHTTPClient` is
`kedautil.CreateHTTPClient`, a function of the KEDA library that builds the
client from the global timeout. -/
def NewWeatherScaler (other : List Char → List String → Nat → List Char)
    (CreateHTTPClient : Nat → Client) (config : ScalerConfig) :
    Except ScalerError weatherScaler :=
  let httpClient := CreateHTTPClient config.GlobalHTTPTimeout
  match ParseWeatherMetadata other config with
  | .error err => .error (.parsingMetadata err)
  | .ok weatherMetadata => .ok { metadata := weatherMetadata, httpClient := httpClient }

/-! ## Notions of the specification -/

/-- The kinds of validation failure that the specification names. -/
inductive FailureKind where
  | InvalidThreshold
  | MissingCityName
  | MissingAPIKey
  | MissingHost
  | InvalidHostURL
  | MissingPreference
  deriving DecidableEq, Repr

/-- The failure kind of an error of `ParseWeatherMetadata`. -/
def MetadataError.kind : MetadataError → FailureKind
  | .thresholdValue _ => .InvalidThreshold
  | .noCityName => .MissingCityName
  | .noAPIKey => .MissingAPIKey
  | .invalidURL _ => .InvalidHostURL
  | .noHost => .MissingHost
  | .noPreference => .MissingPreference

/-- The number that a sequence of decimal digits denotes, most significant
digit first. -/
def decimalValue (digits : List Char) : Nat :=
  digits.foldl (fun acc c => acc * 10 + strconv.digitVal c) 0

/-- The integer that a decimal numeral denotes: one or more decimal digits,
after an optional sign `+` or `-`; no integer for any other text. -/
def denotedInt (text : String) : Option Int :=
  match text.data with
  | [] => none
  | c :: cs =>
    if c = '-' then
      if cs ≠ [] ∧ cs.all strconv.isDigit then some (-(decimalValue cs : Int)) else none
    else if c = '+' then
      if cs ≠ [] ∧ cs.all strconv.isDigit then some (decimalValue cs : Int) else none
    else if (c :: cs).all strconv.isDigit then some (decimalValue (c :: cs) : Int)
    else none

/-- A character that may follow the first letter of a URL scheme: a letter, a
digit, `+`, `-` or `.`. -/
def isSchemeChar (d : Char) : Bool :=
  url.isLetter d || url.isDigit d || d == '+' || d == '-' || d == '.'

/-- A text begins with a URL scheme: a letter, then scheme characters, then a
colon. -/
def hasScheme (text : List Char) : Bool :=
  match text with
  | [] => false
  | c :: cs => url.isLetter c && (cs.dropWhile isSchemeChar).head? == some ':'

/-- The five rules of the metadata validator hold for a mapping: the threshold
entry is acceptable, the city name and the API key are not empty, the host is
present and its substitution passes the URL validation, and the preference is
not empty. -/
def rulesHold (other : List Char → List String → Nat → List Char) (config : ScalerConfig) :
    Prop :=
  thresholdAcceptable config ∧
  mapIndex config.TriggerMetadata "cityName" ≠ "" ∧
  mapIndex config.TriggerMetadata "apiKey" ≠ "" ∧
  (∃ val, config.TriggerMetadata "host" = some val ∧
    url.ParseRequestURI (fmt.Sprintf other val [mapIndex config.TriggerMetadata "cityName",
      mapIndex config.TriggerMetadata "apiKey"]) = .ok ()) ∧
  mapIndex config.TriggerMetadata "preference" ≠ ""

/-! ## Sample inputs -/

/-- The bytes of a text (its UTF-8 encoding). -/
def bytesOf (text : String) : Bytes := text.toUTF8.data.toList

/-- A client whose `Get` returns the given pair for every URL. -/
def clientReturning (reply : Option Response × Option GoError) : Client :=
  { Get := fun _ => reply }

/-- A scaler for Berlin with the given threshold and preference, on a client
whose `Get` returns the given pair. -/
def sampleScaler (thresholdValue : Int) (preference : String)
    (reply : Option Response × Option GoError) : weatherScaler :=
  { metadata := { thresholdValue := thresholdValue, host := "http://x/Berlin/k1",
                  cityName := "Berlin", apiKey := "k1", preference := preference },
    httpClient := clientReturning reply }

/-- A run time that accepts every input as well-formed and decodes it to the
given temperatures. -/
def runtimeDecoding (a b c : float64) (intOutOfRange : float64 → Int) : Runtime :=
  { checkValid := fun _ => none,
    unmarshal := fun _ _ => ({ Main := { Temp_min := a, Temp_max := b, Temp := c } }, none),
    intOutOfRange := intOutOfRange }

/-- A run time that rejects every input as not well-formed. -/
def runtimeRejecting : Runtime :=
  { checkValid := fun _ => some ⟨"invalid character 'o' in literal null (expecting 'u')"⟩,
    unmarshal := fun _ v => (v, none),
    intOutOfRange := fun _ => minInt }

/-- The body of the provider with the temperatures 1.2, 9.8 and 5.5. -/
def sampleBody : Bytes :=
  bytesOf "\x7b\"main\":\x7b\"temp_min\":1.2,\"temp_max\":9.8,\"temp\":5.5\x7d\x7d"

/-- The `float64` nearest to 1.2. -/
def f1_2 : float64 := ⟨5404319552844595, -52⟩

/-- The `float64` nearest to 9.8. -/
def f9_8 : float64 := ⟨2758454771764429, -48⟩

/-- The `float64` 5.5. -/
def f5_5 : float64 := ⟨11, -1⟩

/-- The `float64` 1e19, ten to the nineteenth. -/
def f1e19 : float64 := ⟨4882812500000000, 11⟩

/-- A body of the provider whose minimum temperature is 1e19. -/
def hotBody : Bytes :=
  bytesOf "\x7b\"main\":\x7b\"temp_min\":1e19,\"temp_max\":9.8,\"temp\":5.5\x7d\x7d"

/-! ## The library models on sample inputs -/

/-- The model of `fmt.Sprintf` on sample formats: two slots, no slot (the
operands are reported as extra), too many slots, an escaped percent sign. -/
theorem fmt.Sprintf_samples :
    fmt.Sprintf (fun _ _ _ => []) "http://x/%s/%s" ["Berlin", "k1"] = "http://x/Berlin/k1" ∧
    fmt.Sprintf (fun _ _ _ => []) "" ["Berlin", "k1"] = "%!(EXTRA string=Berlin, string=k1)" ∧
    fmt.Sprintf (fun _ _ _ => []) "%s%s%s%" ["a", "b"] = "ab%!s(MISSING)%!(NOVERB)" ∧
    fmt.Sprintf (fun _ _ _ => []) "100%%%s" ["a", "b"] = "100%a%!(EXTRA string=b)" := by
  decide

/-- The model of `url.ParseRequestURI` on sample inputs that it accepts: an
absolute URL, an absolute path, a URL with a query, with user information, an
IPv6 literal with a zone and a port. -/
theorem url.ParseRequestURI_accepts :
    url.ParseRequestURI "http://x/Berlin/k1" = .ok () ∧
    url.ParseRequestURI "/Berlin/k1" = .ok () ∧
    url.ParseRequestURI "http://api.openweathermap.org/data/2.5/weather?q=Berlin&appid=k1" =
      .ok () ∧
    url.ParseRequestURI "http://u:p@[fe80::1%25en0]:80/a" = .ok () := by
  decide

/-- The model of `url.ParseRequestURI` on sample inputs that it rejects. -/
theorem url.ParseRequestURI_rejects :
    url.ParseRequestURI "" = .error ⟨"parse", "", .emptyURL⟩ ∧
    url.ParseRequestURI "%!(EXTRA string=Berlin, string=k1)" =
      .error ⟨"parse", "%!(EXTRA string=Berlin, string=k1)", .invalidURIForRequest⟩ ∧
    url.ParseRequestURI "http://x/%!(EXTRA string=Berlin, string=k1)" =
      .error ⟨"parse", "http://x/%!(EXTRA string=Berlin, string=k1)", .EscapeError "%!("⟩ ∧
    url.ParseRequestURI "http://x y/a" =
      .error ⟨"parse", "http://x y/a", .InvalidHostError " "⟩ ∧
    url.ParseRequestURI "http://x:a/" = .error ⟨"parse", "http://x:a/", .invalidPort ":a"⟩ ∧
    url.ParseRequestURI "Berlin" = .error ⟨"parse", "Berlin", .invalidURIForRequest⟩ ∧
    url.ParseRequestURI ":x" = .error ⟨"parse", ":x", .missingProtocolScheme⟩ := by
  decide

/-- The model of `strconv.Atoi` on sample inputs: signs, the bounds of `int`,
and inputs that are no integer. -/
theorem strconv.Atoi_samples :
    strconv.Atoi "42" = .ok 42 ∧
    strconv.Atoi "-7" = .ok (-7) ∧
    strconv.Atoi "+7" = .ok 7 ∧
    strconv.Atoi "9223372036854775807" = .ok 9223372036854775807 ∧
    strconv.Atoi "-9223372036854775808" = .ok (-9223372036854775808) ∧
    strconv.Atoi "9223372036854775808" =
      .error ⟨"Atoi", "9223372036854775808", .ErrRange⟩ ∧
    strconv.Atoi "not-a-number" = .error ⟨"Atoi", "not-a-number", .ErrSyntax⟩ ∧
    strconv.Atoi "" = .error ⟨"Atoi", "", .ErrSyntax⟩ ∧
    strconv.Atoi "-" = .error ⟨"Atoi", "-", .ErrSyntax⟩ := by
  decide

/-- The integer part rounds toward zero, for positive and negative numbers:
9.8 gives 9, 5.5 gives 5, -5.5 gives -5, and 1e19 gives ten to the
nineteenth, which is no `int`. -/
theorem truncate_samples :
    truncate f9_8 = 9 ∧ truncate f5_5 = 5 ∧ truncate ⟨-11, -1⟩ = -5 ∧
    truncate f1e19 = 10 ^ 19 ∧ maxInt < truncate f1e19 := by
  decide

/-! ## Lemmas on `fmt.Sprintf` -/

/-- Literal text without `%` is copied to the output. -/
theorem fmt.doPrintf_literal (other : List Char → List String → Nat → List Char)
    (a : List String) (lit rest : List Char) (argNum : Nat) (h : '%' ∉ lit) :
    fmt.doPrintf other a (lit ++ rest) argNum = lit ++ fmt.doPrintf other a rest argNum := by
  induction lit with
  | nil => rfl
  | cons c cs ih =>
    have hc : c ≠ '%' := fun e => h (by simp [e])
    have hcs : '%' ∉ cs := fun e => h (by simp [e])
    rw [List.cons_append, fmt.doPrintf.eq_def]
    simp [hc, ih hcs]

/-- A directive `%s` with an operand left prints that operand. -/
theorem fmt.doPrintf_verb_s (other : List Char → List String → Nat → List Char)
    (a : List String) (rest : List Char) (argNum : Nat) (arg : String)
    (h : a.get? argNum = some arg) :
    fmt.doPrintf other a ('%' :: 's' :: rest) argNum =
      arg.data ++ fmt.doPrintf other a rest (argNum + 1) := by
  have hget : a[argNum]? = some arg := by simpa using h
  rw [fmt.doPrintf.eq_def]
  simp [hget]

/-- A format with exactly two `%s` slots and no other `%`, applied to two
operands, is the format with the slots replaced by the operands in order. -/
theorem fmt.Sprintf_two_slots (other : List Char → List String → Nat → List Char)
    (pre mid post x y : String)
    (hpre : '%' ∉ pre.data) (hmid : '%' ∉ mid.data) (hpost : '%' ∉ post.data) :
    fmt.Sprintf other (pre ++ "%s" ++ mid ++ "%s" ++ post) [x, y] =
      pre ++ x ++ mid ++ y ++ post := by
  have h1 := fmt.doPrintf_literal other [x, y] pre.data
    ('%' :: 's' :: (mid.data ++ '%' :: 's' :: post.data)) 0 hpre
  have h2 := fmt.doPrintf_verb_s other [x, y] (mid.data ++ '%' :: 's' :: post.data) 0 x rfl
  have h3 := fmt.doPrintf_literal other [x, y] mid.data ('%' :: 's' :: post.data) 1 hmid
  have h4 := fmt.doPrintf_verb_s other [x, y] post.data 1 y rfl
  have h5 := fmt.doPrintf_literal other [x, y] post.data [] 2 hpost
  have h6 : fmt.doPrintf other [x, y] [] 2 = [] := by simp [fmt.doPrintf, fmt.finish]
  apply String.ext
  simp only [fmt.Sprintf, String.data_append]
  simp only [List.append_assoc, List.cons_append, List.nil_append, List.append_nil] at *
  rw [h1, h2, h3, h4, h5, h6]
  simp

/-! ## Lemmas on `ParseWeatherMetadata` -/

/-- An acceptable threshold entry passes the first step. -/
theorem parseThreshold_of_acceptable (config : ScalerConfig) (h : thresholdAcceptable config) :
    ∃ t, parseThreshold config = .ok t := by
  unfold thresholdAcceptable at h
  unfold parseThreshold
  cases hv : config.TriggerMetadata "thresholdValue" with
  | none => exact ⟨0, rfl⟩
  | some val =>
    rw [hv] at h
    by_cases he : val = ""
    · exact ⟨0, by simp [he]⟩
    · rcases h with h | ⟨n, hn⟩
      · exact absurd h he
      · exact ⟨n, by simp [he, hn]⟩

/-- What a successful `ParseWeatherMetadata` has checked, and what it
returns. -/
theorem ParseWeatherMetadata_ok (other : List Char → List String → Nat → List Char)
    (config : ScalerConfig) (m : weatherMetadata)
    (h : ParseWeatherMetadata other config = .ok m) :
    parseThreshold config = .ok m.thresholdValue ∧
    m.cityName = mapIndex config.TriggerMetadata "cityName" ∧ m.cityName ≠ "" ∧
    m.apiKey = mapIndex config.TriggerMetadata "apiKey" ∧ m.apiKey ≠ "" ∧
    (∃ val, config.TriggerMetadata "host" = some val ∧
      m.host = fmt.Sprintf other val [m.cityName, m.apiKey]) ∧
    url.ParseRequestURI m.host = .ok () ∧
    m.preference = mapIndex config.TriggerMetadata "preference" ∧ m.preference ≠ "" := by
  unfold ParseWeatherMetadata at h
  cases ht : parseThreshold config with
  | error e => simp [ht] at h
  | ok t =>
    simp only [ht] at h
    by_cases hc : mapIndex config.TriggerMetadata "cityName" = ""
    · simp [hc] at h
    · by_cases hk : mapIndex config.TriggerMetadata "apiKey" = ""
      · simp [hc, hk] at h
      · cases hh : config.TriggerMetadata "host" with
        | none => simp [hc, hk, hh] at h
        | some val =>
          cases hu : url.ParseRequestURI
              (fmt.Sprintf other val [mapIndex config.TriggerMetadata "cityName",
                mapIndex config.TriggerMetadata "apiKey"]) with
          | error e => simp [hc, hk, hh, hu] at h
          | ok u =>
            by_cases hp : mapIndex config.TriggerMetadata "preference" = ""
            · simp [hc, hk, hh, hu, hp] at h
            · simp only [hc, hk, hh, hu, hp, if_false, Except.ok.injEq] at h
              subst h
              exact ⟨rfl, rfl, hc, rfl, hk, ⟨val, rfl, rfl⟩, hu, rfl, hp⟩

/-- A mapping that passes the five checks is accepted, with the record built
from it. -/
theorem ParseWeatherMetadata_of_valid (other : List Char → List String → Nat → List Char)
    (config : ScalerConfig) (t : Int) (val : String)
    (ht : parseThreshold config = .ok t)
    (hc : mapIndex config.TriggerMetadata "cityName" ≠ "")
    (hk : mapIndex config.TriggerMetadata "apiKey" ≠ "")
    (hh : config.TriggerMetadata "host" = some val)
    (hu : url.ParseRequestURI (fmt.Sprintf other val [mapIndex config.TriggerMetadata "cityName",
      mapIndex config.TriggerMetadata "apiKey"]) = .ok ())
    (hp : mapIndex config.TriggerMetadata "preference" ≠ "") :
    ParseWeatherMetadata other config =
      .ok { thresholdValue := t,
            host := fmt.Sprintf other val [mapIndex config.TriggerMetadata "cityName",
              mapIndex config.TriggerMetadata "apiKey"],
            cityName := mapIndex config.TriggerMetadata "cityName",
            apiKey := mapIndex config.TriggerMetadata "apiKey",
            preference := mapIndex config.TriggerMetadata "preference" } := by
  unfold ParseWeatherMetadata
  simp [ht, hc, hk, hh, hu, hp]

/-! ## Metadata validation (C1 to C3) -/

/-- C1. A mapping with an acceptable threshold entry in which exactly one of
the required keys `cityName`, `apiKey`, `host`, `preference` is absent, the
keys checked before it being valid, is rejected with the error of the absent
key: no city name, no API key, no host, no preference. These four errors are
pairwise distinct, as values and as texts. -/
theorem C1_missing_required_key (other : List Char → List String → Nat → List Char)
    (config : ScalerConfig) (hthr : thresholdAcceptable config) :
    (config.TriggerMetadata "cityName" = none →
      ParseWeatherMetadata other config = .error .noCityName) ∧
    (config.TriggerMetadata "apiKey" = none →
      mapIndex config.TriggerMetadata "cityName" ≠ "" →
      ParseWeatherMetadata other config = .error .noAPIKey) ∧
    (config.TriggerMetadata "host" = none →
      mapIndex config.TriggerMetadata "cityName" ≠ "" →
      mapIndex config.TriggerMetadata "apiKey" ≠ "" →
      ParseWeatherMetadata other config = .error .noHost) ∧
    (config.TriggerMetadata "preference" = none →
      mapIndex config.TriggerMetadata "cityName" ≠ "" →
      mapIndex config.TriggerMetadata "apiKey" ≠ "" →
      (∃ val, config.TriggerMetadata "host" = some val ∧
        url.ParseRequestURI (fmt.Sprintf other val [mapIndex config.TriggerMetadata "cityName",
          mapIndex config.TriggerMetadata "apiKey"]) = .ok ()) →
      ParseWeatherMetadata other config = .error .noPreference) ∧
    [MetadataError.noCityName, .noAPIKey, .noHost, .noPreference].Nodup ∧
    ∀ (numError : strconv.NumError → String) (urlError : url.Error → String),
      ([MetadataError.noCityName, .noAPIKey, .noHost, .noPreference].map
        (MetadataError.Error numError urlError)).Nodup := by
  obtain ⟨t, ht⟩ := parseThreshold_of_acceptable config hthr
  refine ⟨?_, ?_, ?_, ?_, by decide, ?_⟩
  · intro h
    unfold ParseWeatherMetadata
    simp [ht, mapIndex, h]
  · intro h hc
    unfold ParseWeatherMetadata
    have hk : mapIndex config.TriggerMetadata "apiKey" = "" := by simp [mapIndex, h]
    simp [ht, hc, hk]
  · intro h hc hk
    unfold ParseWeatherMetadata
    simp [ht, hc, hk, h]
  · intro h hc hk ⟨val, hh, hu⟩
    unfold ParseWeatherMetadata
    have hp : mapIndex config.TriggerMetadata "preference" = "" := by simp [mapIndex, h]
    simp [ht, hc, hk, hh, hu, hp]
  · intro numError urlError
    simp only [List.map, MetadataError.Error]
    decide

/-- C1, on four mappings that each lack one required key. -/
theorem C1_missing_required_key_witness :
    ParseWeatherMetadata (fun _ _ _ => [])
        ⟨mapOf [("apiKey", "k1"), ("host", "http://x/%s/%s"), ("preference", "Temp")], 3⟩ =
      .error .noCityName ∧
    ParseWeatherMetadata (fun _ _ _ => [])
        ⟨mapOf [("thresholdValue", "5"), ("cityName", "Berlin"), ("host", "http://x/%s/%s"),
          ("preference", "Temp")], 3⟩ = .error .noAPIKey ∧
    ParseWeatherMetadata (fun _ _ _ => [])
        ⟨mapOf [("thresholdValue", ""), ("cityName", "Berlin"), ("apiKey", "k1"),
          ("preference", "Temp")], 3⟩ = .error .noHost ∧
    ParseWeatherMetadata (fun _ _ _ => [])
        ⟨mapOf [("cityName", "Berlin"), ("apiKey", "k1"), ("host", "http://x/%s/%s")], 3⟩ =
      .error .noPreference :=
  ⟨(C1_missing_required_key _ _ (by exact trivial)).1 rfl,
   (C1_missing_required_key _ _ (by exact Or.inr ⟨5, by decide⟩)).2.1 rfl (by decide),
   (C1_missing_required_key _ _ (by exact Or.inl rfl)).2.2.1 rfl (by decide) (by decide),
   (C1_missing_required_key _ _ (by exact trivial)).2.2.2.1 rfl (by decide) (by decide)
     ⟨"http://x/%s/%s", rfl, by decide⟩⟩

/-- C2. A `thresholdValue` that is present, not empty and no integer for
`strconv.Atoi` makes `ParseWeatherMetadata` fail with the threshold error, which
carries the error of `Atoi`, whatever else the mapping holds. -/
theorem C2_invalid_threshold (other : List Char → List String → Nat → List Char)
    (config : ScalerConfig) (val : String)
    (hval : config.TriggerMetadata "thresholdValue" = some val) (hne : val ≠ "")
    (hbad : ∀ n, strconv.Atoi val ≠ .ok n) :
    ∃ err, strconv.Atoi val = .error err ∧
      ParseWeatherMetadata other config = .error (.thresholdValue err) := by
  cases ha : strconv.Atoi val with
  | ok n => exact absurd ha (hbad n)
  | error err =>
    refine ⟨err, rfl, ?_⟩
    unfold ParseWeatherMetadata parseThreshold
    simp [hval, hne, ha]

/-- C2, on the threshold "not-a-number" in an otherwise complete mapping. -/
theorem C2_invalid_threshold_witness :
    ∃ err, strconv.Atoi "not-a-number" = .error err ∧
      ParseWeatherMetadata (fun _ _ _ => [])
        ⟨mapOf [("thresholdValue", "not-a-number"), ("cityName", "Berlin"), ("apiKey", "k1"),
          ("host", "http://x/%s/%s"), ("preference", "Temp")], 3⟩ =
        .error (.thresholdValue err) :=
  C2_invalid_threshold _ _ "not-a-number" rfl (by decide) (by
    intro n h
    have e : strconv.Atoi "not-a-number" = .error ⟨"Atoi", "not-a-number", .ErrSyntax⟩ := by
      decide
    rw [e] at h
    cases h)

/-- C3, as stated, fails: the template "http://x/%s/%s?q=%" has exactly two
`%s` slots, and a further percent sign at its end. With city "Berlin" and key
"k1" the mapping is accepted, and the stored host is not the template with the
two slots replaced, "http://x/Berlin/k1?q=%": `fmt.Sprintf` renders the lone
percent sign as "%!(NOVERB)". -/
theorem C3_counterexample :
    ("http://x/%s/%s?q=%" : String) = "http://x/" ++ "%s" ++ "/" ++ "%s" ++ "?q=%" ∧
    ("http://x/Berlin/k1?q=%!(NOVERB)" : String) ≠
      "http://x/" ++ "Berlin" ++ "/" ++ "k1" ++ "?q=%" ∧
    ∀ other : List Char → List String → Nat → List Char,
      ParseWeatherMetadata other
          ⟨mapOf [("cityName", "Berlin"), ("apiKey", "k1"), ("host", "http://x/%s/%s?q=%"),
            ("preference", "Temp")], 3⟩ =
        .ok { thresholdValue := 0, host := "http://x/Berlin/k1?q=%!(NOVERB)",
              cityName := "Berlin", apiKey := "k1", preference := "Temp" } := by
  refine ⟨by decide, by decide, fun other => ?_⟩
  have hs : fmt.Sprintf other "http://x/%s/%s?q=%" ["Berlin", "k1"] =
      "http://x/Berlin/k1?q=%!(NOVERB)" := rfl
  have e1 : mapIndex (mapOf [("cityName", "Berlin"), ("apiKey", "k1"),
    ("host", "http://x/%s/%s?q=%"), ("preference", "Temp")]) "cityName" = "Berlin" := by decide
  have e2 : mapIndex (mapOf [("cityName", "Berlin"), ("apiKey", "k1"),
    ("host", "http://x/%s/%s?q=%"), ("preference", "Temp")]) "apiKey" = "k1" := by decide
  have e3 : mapIndex (mapOf [("cityName", "Berlin"), ("apiKey", "k1"),
    ("host", "http://x/%s/%s?q=%"), ("preference", "Temp")]) "preference" = "Temp" := by decide
  have := ParseWeatherMetadata_of_valid other
    ⟨mapOf [("cityName", "Berlin"), ("apiKey", "k1"), ("host", "http://x/%s/%s?q=%"),
      ("preference", "Temp")], 3⟩ 0 "http://x/%s/%s?q=%" (by decide) (by decide) (by decide)
    (by decide)
    (by
      simp only [e1, e2, hs]
      decide)
    (by decide)
  rw [this]
  simp only [e1, e2, e3, hs]

/-- C3, amended. When `ParseWeatherMetadata` accepts a mapping whose host
template has exactly two `%s` slots and no other percent sign, the stored host
is the template with the first slot replaced by the city name and the second by
the API key. In particular a mapping with template "http://x/%s/%s", city
"Berlin", key "k1", a preference that is not empty and an acceptable threshold
is accepted, and the stored host is "http://x/Berlin/k1". -/
theorem C3_host_substitution (other : List Char → List String → Nat → List Char)
    (config : ScalerConfig) (pre mid post : String) (m : weatherMetadata)
    (hpre : '%' ∉ pre.data) (hmid : '%' ∉ mid.data) (hpost : '%' ∉ post.data)
    (hhost : config.TriggerMetadata "host" = some (pre ++ "%s" ++ mid ++ "%s" ++ post))
    (hok : ParseWeatherMetadata other config = .ok m) :
    m.host = pre ++ mapIndex config.TriggerMetadata "cityName" ++ mid ++
        mapIndex config.TriggerMetadata "apiKey" ++ post ∧
    ∀ cfg : ScalerConfig, thresholdAcceptable cfg →
      cfg.TriggerMetadata "host" = some "http://x/%s/%s" →
      cfg.TriggerMetadata "cityName" = some "Berlin" →
      cfg.TriggerMetadata "apiKey" = some "k1" →
      mapIndex cfg.TriggerMetadata "preference" ≠ "" →
      ∃ t, ParseWeatherMetadata other cfg =
        .ok { thresholdValue := t, host := "http://x/Berlin/k1", cityName := "Berlin",
              apiKey := "k1", preference := mapIndex cfg.TriggerMetadata "preference" } := by
  constructor
  · obtain ⟨_, hc, _, hk, _, ⟨val, hv, hm⟩, _⟩ := ParseWeatherMetadata_ok other config m hok
    rw [hhost] at hv
    cases hv
    rw [hm, fmt.Sprintf_two_slots other pre mid post _ _ hpre hmid hpost, hc, hk]
  · intro cfg hthr hh hc hk hp
    obtain ⟨t, ht⟩ := parseThreshold_of_acceptable cfg hthr
    have hc1 : mapIndex cfg.TriggerMetadata "cityName" = "Berlin" := by simp [mapIndex, hc]
    have hk1 : mapIndex cfg.TriggerMetadata "apiKey" = "k1" := by simp [mapIndex, hk]
    have hs : fmt.Sprintf other "http://x/%s/%s" ["Berlin", "k1"] = "http://x/Berlin/k1" := by
      have := fmt.Sprintf_two_slots other "http://x/" "/" "" "Berlin" "k1"
        (by decide) (by decide) (by decide)
      simpa using this
    refine ⟨t, ?_⟩
    have := ParseWeatherMetadata_of_valid other cfg t "http://x/%s/%s" ht
      (by rw [hc1]; decide) (by rw [hk1]; decide) hh
      (by rw [hc1, hk1, hs]; decide) hp
    rw [this, hc1, hk1, hs]

/-- C3, amended, on the mapping with template "http://x/%s/%s", city "Berlin"
and key "k1". -/
theorem C3_host_substitution_witness :
    ParseWeatherMetadata (fun _ _ _ => [])
        ⟨mapOf [("cityName", "Berlin"), ("apiKey", "k1"), ("host", "http://x/%s/%s"),
          ("preference", "Temp_max")], 3⟩ =
      .ok { thresholdValue := 0, host := "http://x/Berlin/k1", cityName := "Berlin",
            apiKey := "k1", preference := "Temp_max" } ∧
    ("http://x/Berlin/k1" : String) = "http://x/" ++ "Berlin" ++ "/" ++ "k1" ++ "" :=
  ⟨by decide,
   (C3_host_substitution (fun _ _ _ => [])
      ⟨mapOf [("cityName", "Berlin"), ("apiKey", "k1"), ("host", "http://x/%s/%s"),
        ("preference", "Temp_max")], 3⟩ "http://x/" "/" ""
      { thresholdValue := 0, host := "http://x/Berlin/k1", cityName := "Berlin",
        apiKey := "k1", preference := "Temp_max" }
      (by decide) (by decide) (by decide) (by decide) (by decide)).1⟩

/-! ## Lemmas on the fetch -/

/-- With a response, `GetJSONData` returns what reading its body returns,
whatever error `Get` reported. -/
theorem GetJSONData_of_response (s : weatherScaler) (res : Response) (e0 : Option GoError)
    (hget : s.httpClient.Get s.metadata.host = (some res, e0)) :
    GetJSONData s = .ret res.ReadAll := by
  simp [GetJSONData, hget]

/-- Without a response, `GetJSONData` panics on the nil response. -/
theorem GetJSONData_of_no_response (s : weatherScaler) (e0 : Option GoError)
    (hget : s.httpClient.Get s.metadata.host = (none, e0)) :
    GetJSONData s =
      .panic "runtime error: invalid memory address or nil pointer dereference" := by
  simp [GetJSONData, hget]

/-- After a fetch without error, `GetWeather` returns the temperature selected
from the decoded body, and no error. -/
theorem GetWeather_of_fetched (rt : Runtime) (s : weatherScaler) (res : Response)
    (e0 : Option GoError) (body : Bytes)
    (hget : s.httpClient.Get s.metadata.host = (some res, e0))
    (hread : res.ReadAll = (body, none)) :
    GetWeather rt s =
      .ret (selectTemperature rt s.metadata.preference
        (json.Unmarshal rt body WeatherData.zero).1, none) := by
  simp [GetWeather, GetJSONData_of_response s res e0 hget, hread]

/-- After a failed read, `GetWeather` returns 100 and the error of the read. -/
theorem GetWeather_of_read_error (rt : Runtime) (s : weatherScaler) (res : Response)
    (e0 : Option GoError) (body : Bytes) (err : GoError)
    (hget : s.httpClient.Get s.metadata.host = (some res, e0))
    (hread : res.ReadAll = (body, some err)) :
    GetWeather rt s = .ret (100, some err) := by
  simp [GetWeather, GetJSONData_of_response s res e0 hget, hread]

/-- An integer part in the range of `int` is the result of the conversion. -/
theorem floatToInt_of_inRange (rt : Runtime) (f : float64)
    (hlo : minInt ≤ truncate f) (hhi : truncate f ≤ maxInt) :
    floatToInt rt f = truncate f := by
  simp [floatToInt, hlo, hhi]

/-- The conversion always yields an `int`. -/
theorem floatToInt_range (rt : Runtime) (f : float64) :
    minInt ≤ floatToInt rt f ∧ floatToInt rt f ≤ maxInt := by
  unfold floatToInt
  split
  · assumption
  · unfold wrapInt minInt maxInt
    omega

/-! ## Reading the temperature (C4, C5) -/

/-- C4, as stated, fails: for the body whose minimum temperature is 1e19,
fetched without error and decoded to that number, the integer part of the
selected field is ten to the nineteenth, and `GetWeather` does not return it,
whatever the implementation makes of the conversion. -/
theorem C4_counterexample :
    (sampleScaler 0 "Temp_min" (some ⟨(hotBody, none)⟩, none)).httpClient.Get
        (sampleScaler 0 "Temp_min" (some ⟨(hotBody, none)⟩, none)).metadata.host =
      (some ⟨(hotBody, none)⟩, none) ∧
    truncate f1e19 = 10 ^ 19 ∧
    ∀ intOutOfRange : float64 → Int,
      (runtimeDecoding f1e19 f9_8 f5_5 intOutOfRange).checkValid hotBody = none ∧
      ((runtimeDecoding f1e19 f9_8 f5_5 intOutOfRange).unmarshal hotBody WeatherData.zero).1 =
        { Main := { Temp_min := f1e19, Temp_max := f9_8, Temp := f5_5 } } ∧
      GetWeather (runtimeDecoding f1e19 f9_8 f5_5 intOutOfRange)
          (sampleScaler 0 "Temp_min" (some ⟨(hotBody, none)⟩, none)) ≠
        .ret (truncate f1e19, none) := by
  refine ⟨rfl, by decide, fun oor => ⟨rfl, rfl, ?_⟩⟩
  have hf := GetWeather_of_fetched (runtimeDecoding f1e19 f9_8 f5_5 oor)
    (sampleScaler 0 "Temp_min" (some ⟨(hotBody, none)⟩, none)) ⟨(hotBody, none)⟩ none hotBody
    rfl rfl
  rw [hf]
  have hsel : selectTemperature (runtimeDecoding f1e19 f9_8 f5_5 oor)
      (sampleScaler 0 "Temp_min" (some ⟨(hotBody, none)⟩, none)).metadata.preference
      (json.Unmarshal (runtimeDecoding f1e19 f9_8 f5_5 oor) hotBody WeatherData.zero).1 =
      floatToInt (runtimeDecoding f1e19 f9_8 f5_5 oor) f1e19 := rfl
  rw [hsel]
  have hr := (floatToInt_range (runtimeDecoding f1e19 f9_8 f5_5 oor) f1e19).2
  have ht : truncate f1e19 = 10 ^ 19 := by decide
  intro h
  injection h with h
  have h1 := congrArg Prod.fst h
  simp only [ht] at h1
  rw [h1] at hr
  revert hr
  decide

/-- C4, amended. For a body fetched without error that is well-formed and
decodes to the temperatures `a`, `b`, `c`, `GetWeather` returns no error and
the integer part, rounded toward zero, of the field the preference selects
(`a` for "Temp_min", `b` for "Temp_max", `c` for "Temp"), provided that integer
is in the range of `int`. When the decoded fields are the `float64` values of
1.2, 9.8 and 5.5 it returns 9 for "Temp_max" and 5 for "Temp". -/
theorem C4_temperature_truncated (rt : Runtime) (s : weatherScaler) (res : Response)
    (body : Bytes) (a b c : float64)
    (hget : s.httpClient.Get s.metadata.host = (some res, none))
    (hread : res.ReadAll = (body, none))
    (hvalid : rt.checkValid body = none)
    (hdec : (rt.unmarshal body WeatherData.zero).1 =
      { Main := { Temp_min := a, Temp_max := b, Temp := c } }) :
    (s.metadata.preference = "Temp_min" → minInt ≤ truncate a → truncate a ≤ maxInt →
      GetWeather rt s = .ret (truncate a, none)) ∧
    (s.metadata.preference = "Temp_max" → minInt ≤ truncate b → truncate b ≤ maxInt →
      GetWeather rt s = .ret (truncate b, none)) ∧
    (s.metadata.preference = "Temp" → minInt ≤ truncate c → truncate c ≤ maxInt →
      GetWeather rt s = .ret (truncate c, none)) ∧
    (a = f1_2 → b = f9_8 → c = f5_5 →
      (s.metadata.preference = "Temp_max" → GetWeather rt s = .ret (9, none)) ∧
      (s.metadata.preference = "Temp" → GetWeather rt s = .ret (5, none))) := by
  have hf := GetWeather_of_fetched rt s res none body hget hread
  have hu : (json.Unmarshal rt body WeatherData.zero).1 =
      { Main := { Temp_min := a, Temp_max := b, Temp := c } } := by
    simp [json.Unmarshal, hvalid, hdec]
  rw [hu] at hf
  have hmin : s.metadata.preference = "Temp_min" → minInt ≤ truncate a → truncate a ≤ maxInt →
      GetWeather rt s = .ret (truncate a, none) := by
    intro hp hlo hhi
    rw [hf, hp]
    simp [selectTemperature, floatToInt_of_inRange rt a hlo hhi]
  have hmax : s.metadata.preference = "Temp_max" → minInt ≤ truncate b → truncate b ≤ maxInt →
      GetWeather rt s = .ret (truncate b, none) := by
    intro hp hlo hhi
    rw [hf, hp]
    simp [selectTemperature, floatToInt_of_inRange rt b hlo hhi]
  have htemp : s.metadata.preference = "Temp" → minInt ≤ truncate c → truncate c ≤ maxInt →
      GetWeather rt s = .ret (truncate c, none) := by
    intro hp hlo hhi
    rw [hf, hp]
    simp [selectTemperature, floatToInt_of_inRange rt c hlo hhi]
  refine ⟨hmin, hmax, htemp, ?_⟩
  intro _ hb hc
  subst hb hc
  have t9 : truncate f9_8 = 9 := by decide
  have t5 : truncate f5_5 = 5 := by decide
  constructor
  · intro hp
    rw [hmax hp (by rw [t9]; decide) (by rw [t9]; decide), t9]
  · intro hp
    rw [htemp hp (by rw [t5]; decide) (by rw [t5]; decide), t5]

/-- C4, amended, on the sample body decoded to 1.2, 9.8 and 5.5, with the
preference "Temp_max". -/
theorem C4_temperature_truncated_witness :
    GetWeather (runtimeDecoding f1_2 f9_8 f5_5 fun _ => minInt)
        (sampleScaler 7 "Temp_max" (some ⟨(sampleBody, none)⟩, none)) = .ret (9, none) ∧
    GetWeather (runtimeDecoding f1_2 f9_8 f5_5 fun _ => minInt)
        (sampleScaler 7 "Temp_max" (some ⟨(sampleBody, none)⟩, none)) =
      .ret (truncate f9_8, none) :=
  ⟨(C4_temperature_truncated (runtimeDecoding f1_2 f9_8 f5_5 fun _ => minInt)
      (sampleScaler 7 "Temp_max" (some ⟨(sampleBody, none)⟩, none)) ⟨(sampleBody, none)⟩
      sampleBody f1_2 f9_8 f5_5 rfl rfl rfl rfl).2.2.2 rfl rfl rfl |>.1 rfl,
   (C4_temperature_truncated (runtimeDecoding f1_2 f9_8 f5_5 fun _ => minInt)
      (sampleScaler 7 "Temp_max" (some ⟨(sampleBody, none)⟩, none)) ⟨(sampleBody, none)⟩
      sampleBody f1_2 f9_8 f5_5 rfl rfl rfl rfl).2.1 rfl (by decide) (by decide)⟩

/-- C5. After a fetch without error, `GetWeather` returns an integer
temperature and no error, and `IsActive` returns no error and the truth value
of "the temperature is strictly greater than the threshold": true exactly when
it is greater, false otherwise, in particular false when they are equal; with
temperature 9, the threshold 7 gives true and the threshold 10 gives false. -/
theorem C5_active_iff_above_threshold (rt : Runtime) (s : weatherScaler) (res : Response)
    (body : Bytes)
    (hget : s.httpClient.Get s.metadata.host = (some res, none))
    (hread : res.ReadAll = (body, none)) :
    ∃ tmpr, GetWeather rt s = .ret (tmpr, none) ∧
      (IsActive rt s = .ret (true, none) ↔ tmpr > s.metadata.thresholdValue) ∧
      (IsActive rt s = .ret (false, none) ↔ ¬ tmpr > s.metadata.thresholdValue) ∧
      (tmpr = s.metadata.thresholdValue → IsActive rt s = .ret (false, none)) ∧
      (tmpr = 9 → s.metadata.thresholdValue = 7 → IsActive rt s = .ret (true, none)) ∧
      (tmpr = 9 → s.metadata.thresholdValue = 10 → IsActive rt s = .ret (false, none)) := by
  have hf := GetWeather_of_fetched rt s res none body hget hread
  refine ⟨_, hf, ?_⟩
  have ha : IsActive rt s = .ret (decide (selectTemperature rt s.metadata.preference
      (json.Unmarshal rt body WeatherData.zero).1 > s.metadata.thresholdValue), none) := by
    simp [IsActive, hf]
  rw [ha]
  refine ⟨by simp, by simp, ?_, ?_, ?_⟩
  · intro h
    simp [h]
  · intro h1 h2
    simp [h1, h2]
  · intro h1 h2
    simp [h1, h2]

/-- C5, on the sample body with preference "Temp_max" (temperature 9) and
threshold 7. -/
theorem C5_active_iff_above_threshold_witness :
    ∃ tmpr, GetWeather (runtimeDecoding f1_2 f9_8 f5_5 fun _ => minInt)
        (sampleScaler 7 "Temp_max" (some ⟨(sampleBody, none)⟩, none)) = .ret (tmpr, none) ∧
      tmpr = 9 ∧
      IsActive (runtimeDecoding f1_2 f9_8 f5_5 fun _ => minInt)
        (sampleScaler 7 "Temp_max" (some ⟨(sampleBody, none)⟩, none)) = .ret (true, none) := by
  obtain ⟨tmpr, hw, _, _, _, h7, _⟩ :=
    C5_active_iff_above_threshold (runtimeDecoding f1_2 f9_8 f5_5 fun _ => minInt)
      (sampleScaler 7 "Temp_max" (some ⟨(sampleBody, none)⟩, none)) ⟨(sampleBody, none)⟩
      sampleBody rfl rfl
  have h9 : tmpr = 9 := by
    have e : GetWeather (runtimeDecoding f1_2 f9_8 f5_5 fun _ => minInt)
        (sampleScaler 7 "Temp_max" (some ⟨(sampleBody, none)⟩, none)) = .ret (9, none) := by
      decide
    rw [e] at hw
    injection hw with hw
    exact (congrArg Prod.fst hw).symm
  exact ⟨tmpr, hw, h9, h7 h9 rfl⟩

/-! ## Failures of the fetch (C6, C7) -/

/-- C6, on the code. When `Get` fails with a transport error and returns no
response, `GetJSONData` dereferences the nil response: it panics, and so do
`GetWeather`, `IsActive` and `GetMetrics`, instead of returning the error. -/
theorem C6_transport_failure_panics :
    GetJSONData (sampleScaler 7 "Temp_max" (none, some ⟨"dial tcp: connection refused"⟩)) =
      .panic "runtime error: invalid memory address or nil pointer dereference" ∧
    ∀ (rt : Runtime) (now : Nat) (metricName : String) (metricSelector : List (String × String)),
      GetWeather rt (sampleScaler 7 "Temp_max" (none, some ⟨"dial tcp: connection refused"⟩)) =
        .panic "runtime error: invalid memory address or nil pointer dereference" ∧
      GetWeather rt (sampleScaler 7 "Temp_max" (none, some ⟨"dial tcp: connection refused"⟩)) ≠
        .ret (100, some ⟨"dial tcp: connection refused"⟩) ∧
      IsActive rt (sampleScaler 7 "Temp_max" (none, some ⟨"dial tcp: connection refused"⟩)) =
        .panic "runtime error: invalid memory address or nil pointer dereference" ∧
      GetMetrics rt now (sampleScaler 7 "Temp_max" (none, some ⟨"dial tcp: connection refused"⟩))
          metricName metricSelector =
        .panic "runtime error: invalid memory address or nil pointer dereference" := by
  have hj := GetJSONData_of_no_response
    (sampleScaler 7 "Temp_max" (none, some ⟨"dial tcp: connection refused"⟩))
    (some ⟨"dial tcp: connection refused"⟩) rfl
  refine ⟨hj, fun rt now metricName metricSelector => ?_⟩
  have hw : GetWeather rt
      (sampleScaler 7 "Temp_max" (none, some ⟨"dial tcp: connection refused"⟩)) =
      .panic "runtime error: invalid memory address or nil pointer dereference" := by
    simp [GetWeather, hj]
  refine ⟨hw, ?_, ?_, ?_⟩
  · rw [hw]
    intro h
    cases h
  · simp [IsActive, hw]
  · simp [GetMetrics, hw]

/-- C7. When `Get` returns a response and reading its body fails, the error
of the read is returned: by `GetJSONData` with the bytes read, by `GetWeather`
with 100, by `IsActive` with false and by `GetMetrics` with an empty sequence,
whatever the bytes read and the preference. -/
theorem C7_read_error_surfaced (rt : Runtime) (now : Nat) (s : weatherScaler)
    (metricName : String) (metricSelector : List (String × String))
    (res : Response) (e0 : Option GoError) (body : Bytes) (err : GoError)
    (hget : s.httpClient.Get s.metadata.host = (some res, e0))
    (hread : res.ReadAll = (body, some err)) :
    GetJSONData s = .ret (body, some err) ∧
    GetWeather rt s = .ret (100, some err) ∧
    IsActive rt s = .ret (false, some err) ∧
    GetMetrics rt now s metricName metricSelector = .ret ([], some err) := by
  have hj := GetJSONData_of_response s res e0 hget
  have hw := GetWeather_of_read_error rt s res e0 body err hget hread
  refine ⟨by rw [hj, hread], hw, ?_, ?_⟩
  · simp [IsActive, hw]
  · simp [GetMetrics, hw]

/-- C7, on a response whose body breaks off after part of the sample body. -/
theorem C7_read_error_surfaced_witness :
    GetWeather (runtimeDecoding f1_2 f9_8 f5_5 fun _ => minInt)
        (sampleScaler 7 "Temp_max" (some ⟨(sampleBody.take 9, some ⟨"unexpected EOF"⟩)⟩, none)) =
      .ret (100, some ⟨"unexpected EOF"⟩) ∧
    IsActive (runtimeDecoding f1_2 f9_8 f5_5 fun _ => minInt)
        (sampleScaler 7 "Temp_max" (some ⟨(sampleBody.take 9, some ⟨"unexpected EOF"⟩)⟩, none)) =
      .ret (false, some ⟨"unexpected EOF"⟩) ∧
    GetMetrics (runtimeDecoding f1_2 f9_8 f5_5 fun _ => minInt) 1700000000
        (sampleScaler 7 "Temp_max" (some ⟨(sampleBody.take 9, some ⟨"unexpected EOF"⟩)⟩, none))
        "weather" [] = .ret ([], some ⟨"unexpected EOF"⟩) :=
  (C7_read_error_surfaced (runtimeDecoding f1_2 f9_8 f5_5 fun _ => minInt) 1700000000
    (sampleScaler 7 "Temp_max" (some ⟨(sampleBody.take 9, some ⟨"unexpected EOF"⟩)⟩, none))
    "weather" [] ⟨(sampleBody.take 9, some ⟨"unexpected EOF"⟩)⟩ none (sampleBody.take 9)
    ⟨"unexpected EOF"⟩ rfl rfl).2

/-! ## Metric shaping (C8, C9) -/

/-- C8. `GetMetricSpecForScaling` returns exactly one specification, of
external type, named "weather", whose target is of type average value with the
threshold as its average value (42 for the threshold 42); it depends on the
configuration alone, not on the HTTP client. -/
theorem C8_metric_spec (s : weatherScaler) :
    GetMetricSpecForScaling s =
      [{ Type_ := .External,
         External := some
           { Metric := { Name := "weather" },
             Target := { Type_ := .AverageValue,
                         AverageValue := some { value := s.metadata.thresholdValue,
                                                format := .DecimalSI } } } }] ∧
    (GetMetricSpecForScaling s).length = 1 ∧
    (∀ c1 c2 : Client, GetMetricSpecForScaling { metadata := s.metadata, httpClient := c1 } =
      GetMetricSpecForScaling { metadata := s.metadata, httpClient := c2 }) ∧
    (GetMetricSpecForScaling
        { metadata := { s.metadata with thresholdValue := 42 }, httpClient := s.httpClient }).map
        (fun spec => (spec.Type_, spec.External.map fun e =>
          (e.Metric.Name, e.Target.Type_, e.Target.AverageValue.map Quantity.value))) =
      [(.External, some ("weather", .AverageValue, some 42))] :=
  ⟨rfl, rfl, fun _ _ => rfl, rfl⟩

/-- C9. After a fetch without error, `GetMetrics` returns no error and exactly
one sample, whose name is the metric name passed in and whose value is the
integer that `GetWeather` returns, the integer `IsActive` compares with the
threshold. -/
theorem C9_metric_sample (rt : Runtime) (now : Nat) (s : weatherScaler)
    (metricName : String) (metricSelector : List (String × String))
    (res : Response) (body : Bytes)
    (hget : s.httpClient.Get s.metadata.host = (some res, none))
    (hread : res.ReadAll = (body, none)) :
    ∃ tmpr, GetWeather rt s = .ret (tmpr, none) ∧
      GetMetrics rt now s metricName metricSelector =
        .ret ([{ MetricName := metricName, Value := { value := tmpr, format := .DecimalSI },
                 Timestamp := now }], none) ∧
      IsActive rt s = .ret (decide (tmpr > s.metadata.thresholdValue), none) := by
  have hf := GetWeather_of_fetched rt s res none body hget hread
  refine ⟨_, hf, ?_, ?_⟩
  · simp [GetMetrics, hf, NewQuantity]
  · simp [IsActive, hf]

/-- C9, on the sample body with preference "Temp": one sample of value 5. -/
theorem C9_metric_sample_witness :
    ∃ tmpr, GetWeather (runtimeDecoding f1_2 f9_8 f5_5 fun _ => minInt)
        (sampleScaler 7 "Temp" (some ⟨(sampleBody, none)⟩, none)) = .ret (tmpr, none) ∧
      GetMetrics (runtimeDecoding f1_2 f9_8 f5_5 fun _ => minInt) 1700000000
        (sampleScaler 7 "Temp" (some ⟨(sampleBody, none)⟩, none)) "s0-weather" [] =
        .ret ([{ MetricName := "s0-weather", Value := { value := tmpr, format := .DecimalSI },
                 Timestamp := 1700000000 }], none) ∧
      IsActive (runtimeDecoding f1_2 f9_8 f5_5 fun _ => minInt)
        (sampleScaler 7 "Temp" (some ⟨(sampleBody, none)⟩, none)) =
        .ret (decide (tmpr > 7), none) :=
  C9_metric_sample (runtimeDecoding f1_2 f9_8 f5_5 fun _ => minInt) 1700000000
    (sampleScaler 7 "Temp" (some ⟨(sampleBody, none)⟩, none)) "s0-weather" []
    ⟨(sampleBody, none)⟩ sampleBody rfl rfl

/-! ## Bodies that are not well-formed JSON (C10) -/

/-- C10. For a body fetched without error that is not well-formed JSON,
`json.Unmarshal` stores nothing, so the three decoded fields are zero;
`GetWeather` returns 0 and no error whatever the preference, and `IsActive`
returns the truth value of "the threshold is negative" and no error. Whatever
the decoder reports for a fetched body, `GetWeather` returns no error. -/
theorem C10_malformed_body_tolerated (rt : Runtime) (s : weatherScaler) (res : Response)
    (body : Bytes) (e : GoError)
    (hget : s.httpClient.Get s.metadata.host = (some res, none))
    (hread : res.ReadAll = (body, none))
    (hbad : rt.checkValid body = some e) :
    json.Unmarshal rt body WeatherData.zero = (WeatherData.zero, some e) ∧
    GetWeather rt s = .ret (0, none) ∧
    IsActive rt s = .ret (decide (s.metadata.thresholdValue < 0), none) ∧
    ∀ rt1 : Runtime, ∃ tmpr, GetWeather rt1 s = .ret (tmpr, none) ∧
      ∃ active, IsActive rt1 s = .ret (active, none) := by
  have hu : json.Unmarshal rt body WeatherData.zero = (WeatherData.zero, some e) := by
    simp [json.Unmarshal, hbad]
  have hz : floatToInt rt ⟨0, 0⟩ = 0 := by
    rw [floatToInt_of_inRange rt ⟨0, 0⟩ (by decide) (by decide)]
    decide
  have hsel : selectTemperature rt s.metadata.preference WeatherData.zero = 0 := by
    unfold selectTemperature WeatherData.zero
    simp only [hz]
    split_ifs <;> rfl
  have hw : GetWeather rt s = .ret (0, none) := by
    rw [GetWeather_of_fetched rt s res none body hget hread, hu, hsel]
  refine ⟨hu, hw, ?_, ?_⟩
  · simp [IsActive, hw]
  · intro rt1
    have hf := GetWeather_of_fetched rt1 s res none body hget hread
    refine ⟨_, hf, decide (selectTemperature rt1 s.metadata.preference
      (json.Unmarshal rt1 body WeatherData.zero).1 > s.metadata.thresholdValue), ?_⟩
    simp [IsActive, hf]

/-- C10, on a body that is no JSON, with preference "Temp_max" and the
negative threshold -3. -/
theorem C10_malformed_body_tolerated_witness :
    GetWeather runtimeRejecting
        (sampleScaler (-3) "Temp_max" (some ⟨(bytesOf "not json", none)⟩, none)) =
      .ret (0, none) ∧
    IsActive runtimeRejecting
        (sampleScaler (-3) "Temp_max" (some ⟨(bytesOf "not json", none)⟩, none)) =
      .ret (true, none) :=
  ⟨(C10_malformed_body_tolerated runtimeRejecting
      (sampleScaler (-3) "Temp_max" (some ⟨(bytesOf "not json", none)⟩, none))
      ⟨(bytesOf "not json", none)⟩ (bytesOf "not json")
      ⟨"invalid character 'o' in literal null (expecting 'u')"⟩ rfl rfl rfl).2.1,
   (C10_malformed_body_tolerated runtimeRejecting
      (sampleScaler (-3) "Temp_max" (some ⟨(bytesOf "not json", none)⟩, none))
      ⟨(bytesOf "not json", none)⟩ (bytesOf "not json")
      ⟨"invalid character 'o' in literal null (expecting 'u')"⟩ rfl rfl rfl).2.2.1⟩

/-! ## A preference that matches no field (C11) -/

/-- C11. When the preference is none of the exact strings "Temp_min",
"Temp_max" and "Temp" (the comparison distinguishes upper and lower case, so
"temp_max" matches none), `GetWeather` returns 0 and no error for every body
fetched without error, whatever temperatures the body decodes to. -/
theorem C11_unmatched_preference (rt : Runtime) (s : weatherScaler) (res : Response)
    (body : Bytes)
    (hget : s.httpClient.Get s.metadata.host = (some res, none))
    (hread : res.ReadAll = (body, none))
    (hmin : s.metadata.preference ≠ "Temp_min")
    (hmax : s.metadata.preference ≠ "Temp_max")
    (htemp : s.metadata.preference ≠ "Temp") :
    GetWeather rt s = .ret (0, none) := by
  rw [GetWeather_of_fetched rt s res none body hget hread]
  simp [selectTemperature, hmin, hmax, htemp]

/-- C11, on the preference "temp_max" and the sample body decoded to 1.2, 9.8
and 5.5. -/
theorem C11_unmatched_preference_witness :
    GetWeather (runtimeDecoding f1_2 f9_8 f5_5 fun _ => minInt)
        (sampleScaler 7 "temp_max" (some ⟨(sampleBody, none)⟩, none)) = .ret (0, none) :=
  C11_unmatched_preference (runtimeDecoding f1_2 f9_8 f5_5 fun _ => minInt)
    (sampleScaler 7 "temp_max" (some ⟨(sampleBody, none)⟩, none)) ⟨(sampleBody, none)⟩
    sampleBody rfl rfl (by decide) (by decide) (by decide)

/-! ## Lemmas on `strconv.Atoi` -/

/-- A decimal digit has a value of at most nine. -/
theorem strconv.digitVal_le (c : Char) (h : strconv.isDigit c = true) :
    strconv.digitVal c ≤ 9 := by
  simp only [strconv.isDigit, Bool.and_eq_true, decide_eq_true_eq] at h
  have h9 : '9'.toNat = 57 := rfl
  have h0 : '0'.toNat = 48 := rfl
  unfold strconv.digitVal
  omega

/-- The loop of `ParseUint`, when it succeeds, has read decimal digits only
and returns the number they denote after the accumulator. -/
theorem strconv.parseUintLoop_ok (cs : List Char) (n m : Nat)
    (h : strconv.parseUintLoop cs n = .ok m) :
    cs.all strconv.isDigit = true ∧
      m = cs.foldl (fun acc c => acc * 10 + strconv.digitVal c) n := by
  induction cs generalizing n with
  | nil =>
    simp only [strconv.parseUintLoop, Except.ok.injEq] at h
    simp [h]
  | cons c cs ih =>
    rw [strconv.parseUintLoop] at h
    by_cases hd : strconv.isDigit c = true
    · have hle := strconv.digitVal_le c hd
      simp only [hd, Bool.not_true, Bool.false_eq_true, if_false] at h
      split_ifs at h with hcut hov
      have hmod : (n * 10 + strconv.digitVal c) % 2 ^ 64 = n * 10 + strconv.digitVal c := by
        unfold strconv.maxUint64 at hcut hov
        norm_num at hcut hov ⊢
        omega
      rw [hmod] at h
      obtain ⟨h1, h2⟩ := ih _ h
      exact ⟨by simp [hd, h1], by simpa using h2⟩
    · simp [hd] at h

/-- The digit loop of the fast path, when it succeeds, has read decimal digits
only and returns the number they denote after the accumulator. -/
theorem strconv.atoiFastLoop_some (cs : List Char) (n m : Nat)
    (h : strconv.atoiFastLoop cs n = some m) :
    cs.all strconv.isDigit = true ∧
      m = cs.foldl (fun acc c => acc * 10 + strconv.digitVal c) n := by
  induction cs generalizing n with
  | nil =>
    simp only [strconv.atoiFastLoop, Option.some.injEq] at h
    simp [h]
  | cons c cs ih =>
    rw [strconv.atoiFastLoop] at h
    by_cases hd : strconv.isDigit c = true
    · simp only [hd, if_true] at h
      obtain ⟨h1, h2⟩ := ih _ h
      exact ⟨by simp [hd, h1], by simpa using h2⟩
    · simp [hd] at h

/-- A sign is no decimal digit. -/
theorem strconv.isDigit_not_sign (c : Char) (h : strconv.isDigit c = true) :
    c ≠ '-' ∧ c ≠ '+' := by
  constructor
  · intro e
    rw [e] at h
    revert h
    decide
  · intro e
    rw [e] at h
    revert h
    decide

/-- A successful `ParseUint` has read one or more decimal digits and returns
the number they denote. -/
theorem strconv.ParseUint_ok (l : List Char) (m : Nat) (h : strconv.ParseUint l = .ok m) :
    l ≠ [] ∧ l.all strconv.isDigit = true ∧ m = decimalValue l := by
  cases l with
  | nil => simp [strconv.ParseUint] at h
  | cons c cs =>
    simp only [strconv.ParseUint] at h
    obtain ⟨h1, h2⟩ := strconv.parseUintLoop_ok (c :: cs) 0 m h
    exact ⟨by simp, h1, h2⟩

/-- The fast path of `Atoi` returns the integer that the text denotes. -/
theorem strconv.atoiFast_ok (l : List Char) (n : Int) (h : strconv.atoiFast l = .ok n) :
    denotedInt ⟨l⟩ = some n := by
  cases l with
  | nil => simp [strconv.atoiFast] at h
  | cons c cs =>
    unfold denotedInt
    simp only
    by_cases hm : c = '-'
    · subst hm
      simp only [strconv.atoiFast] at h
      cases hl : strconv.atoiFastLoop cs 0 with
      | none =>
        simp [hl] at h
      | some m =>
        obtain ⟨h1, h2⟩ := strconv.atoiFastLoop_some cs 0 m hl
        by_cases hne : cs = []
        · subst hne
          simp at h
        · have hlen : ¬ cs.length < 1 := by
            cases cs with
            | nil => exact absurd rfl hne
            | cons _ _ => simp
          simp [hl, hlen] at h
          simp [hne, h1, decimalValue, ← h2, h]
    · by_cases hp : c = '+'
      · subst hp
        simp only [strconv.atoiFast] at h
        cases hl : strconv.atoiFastLoop cs 0 with
        | none =>
          simp [hl] at h
        | some m =>
          obtain ⟨h1, h2⟩ := strconv.atoiFastLoop_some cs 0 m hl
          by_cases hne : cs = []
          · subst hne
            simp at h
          · have hlen : ¬ cs.length < 1 := by
              cases cs with
              | nil => exact absurd rfl hne
              | cons _ _ => simp
            simp [hl, hlen] at h
            simp [hne, h1, decimalValue, ← h2, h]
      · simp only [strconv.atoiFast] at h
        have hs : (c == '-' || c == '+') = false := by simp [hm, hp]
        cases hl : strconv.atoiFastLoop (c :: cs) 0 with
        | none =>
          simp [hl, hs] at h
        | some m =>
          obtain ⟨h1, h2⟩ := strconv.atoiFastLoop_some (c :: cs) 0 m hl
          simp [hl, hs, hm] at h
          rw [if_neg hm, if_neg hp, if_pos h1]
          simp [decimalValue, ← h2, h]

/-- The slow path of `Atoi` returns the integer that the text denotes. -/
theorem strconv.ParseInt_ok (l : List Char) (n : Int) (h : strconv.ParseInt l = .ok n) :
    denotedInt ⟨l⟩ = some n := by
  cases l with
  | nil => simp [strconv.ParseInt] at h
  | cons c cs =>
    unfold denotedInt
    simp only
    by_cases hm : c = '-'
    · subst hm
      simp only [strconv.ParseInt] at h
      cases hu : strconv.ParseUint cs with
      | error e => simp [hu] at h
      | ok un =>
        obtain ⟨h0, h1, h2⟩ := strconv.ParseUint_ok cs un hu
        simp [hu] at h
        split_ifs at h
        simp only [Except.ok.injEq] at h
        simp [h0, h1, ← h2, h]
    · by_cases hp : c = '+'
      · subst hp
        simp only [strconv.ParseInt] at h
        cases hu : strconv.ParseUint cs with
        | error e => simp [hu] at h
        | ok un =>
          obtain ⟨h0, h1, h2⟩ := strconv.ParseUint_ok cs un hu
          simp [hu] at h
          split_ifs at h
          simp only [Except.ok.injEq] at h
          simp [h0, h1, ← h2, h]
      · simp only [strconv.ParseInt] at h
        have hm1 : (c == '-') = false := by simp [hm]
        have hp1 : (c == '+') = false := by simp [hp]
        simp only [hm1, hp1, Bool.false_eq_true, if_false] at h
        cases hu : strconv.ParseUint (c :: cs) with
        | error e => simp [hu] at h
        | ok un =>
          obtain ⟨_, h1, h2⟩ := strconv.ParseUint_ok (c :: cs) un hu
          simp [hu] at h
          split_ifs at h
          simp only [Except.ok.injEq] at h
          rw [if_neg hm, if_neg hp, if_pos h1]
          simp [← h2, h]

/-- Refinement of the specification by `strconv.Atoi`: an integer that `Atoi`
returns is the integer that the text denotes. -/
theorem strconv.Atoi_ok (text : String) (n : Int) (h : strconv.Atoi text = .ok n) :
    denotedInt text = some n := by
  unfold strconv.Atoi at h
  simp only at h
  split at h
  · next r hr =>
    simp only [Except.ok.injEq] at h
    subst h
    split_ifs at hr
    · exact strconv.atoiFast_ok text.data _ hr
    · exact strconv.ParseInt_ok text.data _ hr
  · simp at h

/-- The integer that a text denotes, on sample texts: signs, leading zeros,
and texts that are no numeral. -/
theorem denotedInt_samples :
    denotedInt "42" = some 42 ∧ denotedInt "-7" = some (-7) ∧ denotedInt "+7" = some 7 ∧
    denotedInt "007" = some 7 ∧ denotedInt "-0" = some 0 ∧ denotedInt "" = none ∧
    denotedInt "-" = none ∧ denotedInt "4 2" = none ∧ denotedInt "not-a-number" = none := by
  decide

/-- A key whose value in a Go map is not the empty string is present with that
value. -/
theorem mapIndex_ne_empty (m : String → Option String) (key : String)
    (h : mapIndex m key ≠ "") : m key = some (mapIndex m key) := by
  unfold mapIndex at h ⊢
  cases hk : m key with
  | none => simp [hk] at h
  | some v => simp

/-! ## The configuration returned (C12, C14) -/

/-- C12. When `ParseWeatherMetadata` succeeds, the threshold of the returned
configuration is 0 if the key `thresholdValue` is absent or its value is the
empty string, and otherwise it is what `strconv.Atoi` returns for the value,
which is the integer that the value denotes as a decimal numeral with an
optional sign. -/
theorem C12_threshold_value (other : List Char → List String → Nat → List Char)
    (config : ScalerConfig) (m : weatherMetadata)
    (hok : ParseWeatherMetadata other config = .ok m) :
    (config.TriggerMetadata "thresholdValue" = none → m.thresholdValue = 0) ∧
    (config.TriggerMetadata "thresholdValue" = some "" → m.thresholdValue = 0) ∧
    (∀ val, config.TriggerMetadata "thresholdValue" = some val → val ≠ "" →
      strconv.Atoi val = .ok m.thresholdValue ∧ denotedInt val = some m.thresholdValue) := by
  have ht := (ParseWeatherMetadata_ok other config m hok).1
  unfold parseThreshold at ht
  refine ⟨?_, ?_, ?_⟩
  · intro h
    simp only [h, Except.ok.injEq] at ht
    exact ht.symm
  · intro h
    simp only [h, ne_eq, not_true_eq_false, if_false, Except.ok.injEq] at ht
    exact ht.symm
  · intro val h hne
    simp only [h, ne_eq, hne, not_false_eq_true, if_true] at ht
    cases ha : strconv.Atoi val with
    | error e => simp [ha] at ht
    | ok n =>
      simp only [ha, Except.ok.injEq] at ht
      rw [← ht]
      exact ⟨rfl, strconv.Atoi_ok val n ha⟩

/-- C12, on a mapping whose threshold is "-42". -/
theorem C12_threshold_value_witness :
    ParseWeatherMetadata (fun _ _ _ => [])
        ⟨mapOf [("thresholdValue", "-42"), ("cityName", "Berlin"), ("apiKey", "k1"),
          ("host", "http://x/%s/%s"), ("preference", "Temp")], 3⟩ =
      .ok { thresholdValue := -42, host := "http://x/Berlin/k1", cityName := "Berlin",
            apiKey := "k1", preference := "Temp" } ∧
    strconv.Atoi "-42" = .ok (-42) ∧ denotedInt "-42" = some (-42) :=
  ⟨by decide,
   (C12_threshold_value (fun _ _ _ => [])
      ⟨mapOf [("thresholdValue", "-42"), ("cityName", "Berlin"), ("apiKey", "k1"),
        ("host", "http://x/%s/%s"), ("preference", "Temp")], 3⟩
      { thresholdValue := -42, host := "http://x/Berlin/k1", cityName := "Berlin",
        apiKey := "k1", preference := "Temp" } (by decide)).2.2 "-42" rfl (by decide)⟩

/-- C14. A configuration returned by `ParseWeatherMetadata` has a city name,
an API key and a preference that are not empty, and each is the value of its
key in the input mapping. -/
theorem C14_required_fields (other : List Char → List String → Nat → List Char)
    (config : ScalerConfig) (m : weatherMetadata)
    (hok : ParseWeatherMetadata other config = .ok m) :
    m.cityName ≠ "" ∧ m.apiKey ≠ "" ∧ m.preference ≠ "" ∧
    config.TriggerMetadata "cityName" = some m.cityName ∧
    config.TriggerMetadata "apiKey" = some m.apiKey ∧
    config.TriggerMetadata "preference" = some m.preference := by
  obtain ⟨_, hc, hc0, hk, hk0, _, _, hp, hp0⟩ := ParseWeatherMetadata_ok other config m hok
  refine ⟨hc0, hk0, hp0, ?_, ?_, ?_⟩
  · rw [hc] at hc0 ⊢
    exact mapIndex_ne_empty _ _ hc0
  · rw [hk] at hk0 ⊢
    exact mapIndex_ne_empty _ _ hk0
  · rw [hp] at hp0 ⊢
    exact mapIndex_ne_empty _ _ hp0

/-- C14, on the mapping for Berlin. -/
theorem C14_required_fields_witness :
    ("Berlin" : String) ≠ "" ∧ ("k1" : String) ≠ "" ∧ ("Temp_max" : String) ≠ "" ∧
    mapOf [("cityName", "Berlin"), ("apiKey", "k1"), ("host", "http://x/%s/%s"),
      ("preference", "Temp_max")] "cityName" = some "Berlin" ∧
    mapOf [("cityName", "Berlin"), ("apiKey", "k1"), ("host", "http://x/%s/%s"),
      ("preference", "Temp_max")] "apiKey" = some "k1" ∧
    mapOf [("cityName", "Berlin"), ("apiKey", "k1"), ("host", "http://x/%s/%s"),
      ("preference", "Temp_max")] "preference" = some "Temp_max" :=
  C14_required_fields (fun _ _ _ => [])
    ⟨mapOf [("cityName", "Berlin"), ("apiKey", "k1"), ("host", "http://x/%s/%s"),
      ("preference", "Temp_max")], 3⟩
    { thresholdValue := 0, host := "http://x/Berlin/k1", cityName := "Berlin",
      apiKey := "k1", preference := "Temp_max" } (by decide)

/-! ## Lemmas on `url.ParseRequestURI` -/

/-- The loop of `getScheme`, once past the first character, finds no scheme
and returns the whole input, or has met a colon after scheme characters. -/
theorem url.getSchemeLoop_form (raw : List Char) (l seen sch rest : List Char)
    (hseen : seen ≠ []) (h : url.getSchemeLoop raw seen l = .ok (sch, rest)) :
    (sch = [] ∧ rest = raw) ∨ (l.dropWhile isSchemeChar).head? = some ':' := by
  induction l generalizing seen with
  | nil =>
    simp only [url.getSchemeLoop, Except.ok.injEq, Prod.mk.injEq] at h
    exact Or.inl ⟨h.1.symm, h.2.symm⟩
  | cons c cs ih =>
    rw [url.getSchemeLoop] at h
    by_cases hl : url.isLetter c = true
    · simp only [hl, if_true] at h
      rcases ih (seen ++ [c]) (by simp) h with h1 | h1
      · exact Or.inl h1
      · right
        simpa [List.dropWhile, isSchemeChar, hl] using h1
    · simp only [hl, Bool.false_eq_true, if_false] at h
      by_cases hd : (url.isDigit c || c == '+' || c == '-' || c == '.') = true
      · simp only [hd, if_true, hseen, if_false] at h
        rcases ih (seen ++ [c]) (by simp) h with h1 | h1
        · exact Or.inl h1
        · right
          have hs : isSchemeChar c = true := by
            simp only [Bool.or_eq_true] at hd
            simp only [isSchemeChar, Bool.or_eq_true]
            tauto
          simpa [List.dropWhile, hs] using h1
      · simp only [hd, Bool.false_eq_true, if_false] at h
        by_cases hcol : (c == ':') = true
        · right
          have hc : c = ':' := by simpa using hcol
          subst hc
          simp [List.dropWhile, isSchemeChar, url.isLetter, url.isDigit]
        · simp only [hcol, Bool.false_eq_true, if_false, Except.ok.injEq, Prod.mk.injEq] at h
          exact Or.inl ⟨h.1.symm, h.2.symm⟩

/-- The function `getScheme` finds no scheme and returns the whole input, or
the input begins with a scheme. -/
theorem url.getScheme_form (u sch rest : List Char)
    (h : url.getScheme u = .ok (sch, rest)) :
    (sch = [] ∧ rest = u) ∨ hasScheme u = true := by
  cases u with
  | nil =>
    simp only [url.getScheme, url.getSchemeLoop, Except.ok.injEq, Prod.mk.injEq] at h
    exact Or.inl ⟨h.1.symm, h.2.symm⟩
  | cons c cs =>
    unfold url.getScheme at h
    rw [url.getSchemeLoop] at h
    by_cases hl : url.isLetter c = true
    · simp only [hl, if_true] at h
      rcases url.getSchemeLoop_form (c :: cs) cs ([] ++ [c]) sch rest (by simp) h with h1 | h1
      · exact Or.inl h1
      · right
        simp [hasScheme, hl, h1]
    · left
      simp only [hl, Bool.false_eq_true, if_false] at h
      by_cases hd : (url.isDigit c || c == '+' || c == '-' || c == '.') = true
      · simp only [hd, if_true, Except.ok.injEq, Prod.mk.injEq] at h
        exact ⟨h.1.symm, h.2.symm⟩
      · simp only [hd, Bool.false_eq_true, if_false] at h
        by_cases hcol : (c == ':') = true
        · simp [hcol] at h
        · simp only [hcol, Bool.false_eq_true, if_false, Except.ok.injEq, Prod.mk.injEq] at h
          exact ⟨h.1.symm, h.2.symm⟩

/-- The first character of a prefix taken from a text is the first character
of the text. -/
theorem head_takeWhile (p : Char → Bool) (l : List Char) (x : Char)
    (h : (l.takeWhile p).head? = some x) : l.head? = some x := by
  cases l with
  | nil => simp at h
  | cons c cs =>
    by_cases hp : p c = true
    · simpa [List.takeWhile, hp] using h
    · simp [List.takeWhile, hp] at h

/-- What `parse` accepts for a request: the text `*`, a text that begins with
`/`, or a text that begins with a scheme. -/
theorem url.parse_ok_form (u : List Char) (h : url.parse u = .ok ()) :
    u = ['*'] ∨ u.head? = some '/' ∨ hasScheme u = true := by
  unfold url.parse at h
  split_ifs at h with h1 h2 h3
  · exact Or.inl h3
  · cases hg : url.getScheme u with
    | error e => simp [hg] at h
    | ok p =>
      obtain ⟨sch, after⟩ := p
      rcases url.getScheme_form u sch after hg with ⟨hs, ha⟩ | hs
      · subst hs ha
        simp only [hg] at h
        right
        left
        by_contra hne
        have key : ∀ p : Char → Bool, (after.takeWhile p).head? ≠ some '/' :=
          fun p hx => hne (head_takeWhile p _ _ hx)
        simp [key] at h
      · exact Or.inr (Or.inr hs)

/-- What `url.ParseRequestURI` accepts: the text `*`, a text that begins with
`/`, or a text that begins with a scheme. -/
theorem url.ParseRequestURI_ok_form (u : String) (h : url.ParseRequestURI u = .ok ()) :
    u = "*" ∨ u.data.head? = some '/' ∨ hasScheme u.data = true := by
  unfold url.ParseRequestURI at h
  cases hp : url.parse u.data with
  | error e => simp [hp] at h
  | ok v =>
    rcases url.parse_ok_form u.data hp with h1 | h1 | h1
    · exact Or.inl (String.ext h1)
    · exact Or.inr (Or.inl h1)
    · exact Or.inr (Or.inr h1)

/-- A text that is not `*`, does not begin with `/` and has no scheme is
rejected by `url.ParseRequestURI`. -/
theorem url.ParseRequestURI_error_of_form (u : String) (hstar : u ≠ "*")
    (hslash : u.data.head? ≠ some '/') (hscheme : hasScheme u.data = false) :
    ∃ e, url.ParseRequestURI u = .error { Op := "parse", URL := u, Err := e } := by
  cases hp : url.parse u.data with
  | error e => exact ⟨e, by simp [url.ParseRequestURI, hp]⟩
  | ok v =>
    rcases url.parse_ok_form u.data hp with h1 | h1 | h1
    · exact absurd (String.ext h1) hstar
    · exact absurd h1 hslash
    · rw [hscheme] at h1
      cases h1

/-- A mapping that passes the first three checks and whose substituted host
fails the URL validation is rejected with the URL error. -/
theorem ParseWeatherMetadata_of_invalid_url (other : List Char → List String → Nat → List Char)
    (config : ScalerConfig) (t : Int) (val : String) (err : url.Error)
    (ht : parseThreshold config = .ok t)
    (hc : mapIndex config.TriggerMetadata "cityName" ≠ "")
    (hk : mapIndex config.TriggerMetadata "apiKey" ≠ "")
    (hh : config.TriggerMetadata "host" = some val)
    (hu : url.ParseRequestURI (fmt.Sprintf other val [mapIndex config.TriggerMetadata "cityName",
      mapIndex config.TriggerMetadata "apiKey"]) = .error err) :
    ParseWeatherMetadata other config = .error (.invalidURL err) := by
  unfold ParseWeatherMetadata
  simp [ht, hc, hk, hh, hu]

/-- An error of the first step is the threshold error, for a value that is
present, not empty and rejected by `strconv.Atoi`. -/
theorem parseThreshold_error (config : ScalerConfig) (e : MetadataError)
    (h : parseThreshold config = .error e) :
    ∃ val err, config.TriggerMetadata "thresholdValue" = some val ∧ val ≠ "" ∧
      strconv.Atoi val = .error err ∧ e = .thresholdValue err := by
  unfold parseThreshold at h
  cases hv : config.TriggerMetadata "thresholdValue" with
  | none => simp [hv] at h
  | some val =>
    by_cases hne : val = ""
    · simp [hv, hne] at h
    · cases ha : strconv.Atoi val with
      | ok n => simp [hv, hne, ha] at h
      | error err =>
        simp only [hv, ne_eq, hne, not_false_eq_true, if_true, ha, Except.error.injEq] at h
        exact ⟨val, err, rfl, hne, ha, h.symm⟩

/-- A failure of the first step is the result of `ParseWeatherMetadata`. -/
theorem ParseWeatherMetadata_of_threshold_error
    (other : List Char → List String → Nat → List Char) (config : ScalerConfig)
    (e : MetadataError) (ht : parseThreshold config = .error e) :
    ParseWeatherMetadata other config = .error e := by
  unfold ParseWeatherMetadata
  simp [ht]

/-- After the first step, an empty city name is rejected. -/
theorem ParseWeatherMetadata_of_no_city (other : List Char → List String → Nat → List Char)
    (config : ScalerConfig) (t : Int) (ht : parseThreshold config = .ok t)
    (hc : mapIndex config.TriggerMetadata "cityName" = "") :
    ParseWeatherMetadata other config = .error .noCityName := by
  unfold ParseWeatherMetadata
  simp [ht, hc]

/-- After the first two steps, an empty API key is rejected. -/
theorem ParseWeatherMetadata_of_no_key (other : List Char → List String → Nat → List Char)
    (config : ScalerConfig) (t : Int) (ht : parseThreshold config = .ok t)
    (hc : mapIndex config.TriggerMetadata "cityName" ≠ "")
    (hk : mapIndex config.TriggerMetadata "apiKey" = "") :
    ParseWeatherMetadata other config = .error .noAPIKey := by
  unfold ParseWeatherMetadata
  simp [ht, hc, hk]

/-- After the first three steps, an absent host is rejected. -/
theorem ParseWeatherMetadata_of_no_host (other : List Char → List String → Nat → List Char)
    (config : ScalerConfig) (t : Int) (ht : parseThreshold config = .ok t)
    (hc : mapIndex config.TriggerMetadata "cityName" ≠ "")
    (hk : mapIndex config.TriggerMetadata "apiKey" ≠ "")
    (hh : config.TriggerMetadata "host" = none) :
    ParseWeatherMetadata other config = .error .noHost := by
  unfold ParseWeatherMetadata
  simp [ht, hc, hk, hh]

/-- After the first four steps, an empty preference is rejected. -/
theorem ParseWeatherMetadata_of_no_preference
    (other : List Char → List String → Nat → List Char)
    (config : ScalerConfig) (t : Int) (val : String)
    (ht : parseThreshold config = .ok t)
    (hc : mapIndex config.TriggerMetadata "cityName" ≠ "")
    (hk : mapIndex config.TriggerMetadata "apiKey" ≠ "")
    (hh : config.TriggerMetadata "host" = some val)
    (hu : url.ParseRequestURI (fmt.Sprintf other val [mapIndex config.TriggerMetadata "cityName",
      mapIndex config.TriggerMetadata "apiKey"]) = .ok ())
    (hp : mapIndex config.TriggerMetadata "preference" = "") :
    ParseWeatherMetadata other config = .error .noPreference := by
  unfold ParseWeatherMetadata
  simp [ht, hc, hk, hh, hu, hp]

/-- The error for a missing host is returned for an absent key only. -/
theorem ParseWeatherMetadata_noHost (other : List Char → List String → Nat → List Char)
    (config : ScalerConfig) (h : ParseWeatherMetadata other config = .error .noHost) :
    config.TriggerMetadata "host" = none := by
  cases ht : parseThreshold config with
  | error e =>
    obtain ⟨val, err, _, _, _, he⟩ := parseThreshold_error config e ht
    rw [ParseWeatherMetadata_of_threshold_error other config e ht, he] at h
    cases h
  | ok t =>
    by_cases hc : mapIndex config.TriggerMetadata "cityName" = ""
    · rw [ParseWeatherMetadata_of_no_city other config t ht hc] at h
      cases h
    · by_cases hk : mapIndex config.TriggerMetadata "apiKey" = ""
      · rw [ParseWeatherMetadata_of_no_key other config t ht hc hk] at h
        cases h
      · cases hh : config.TriggerMetadata "host" with
        | none => rfl
        | some val =>
          cases hu : url.ParseRequestURI (fmt.Sprintf other val
              [mapIndex config.TriggerMetadata "cityName",
                mapIndex config.TriggerMetadata "apiKey"]) with
          | error err =>
            rw [ParseWeatherMetadata_of_invalid_url other config t val err ht hc hk hh hu] at h
            cases h
          | ok u =>
            by_cases hp : mapIndex config.TriggerMetadata "preference" = ""
            · rw [ParseWeatherMetadata_of_no_preference other config t val ht hc hk hh hu hp] at h
              cases h
            · rw [ParseWeatherMetadata_of_valid other config t val ht hc hk hh hu hp] at h
              cases h

/-- With an empty format, `fmt.Sprintf` reports both operands as extra: the
result begins with a percent sign. -/
theorem fmt.Sprintf_empty_format (other : List Char → List String → Nat → List Char)
    (x y : String) :
    fmt.Sprintf other "" [x, y] = String.mk (fmt.extraArgs [x, y]) ∧
    ∃ tl, (fmt.Sprintf other "" [x, y]).data = '%' :: tl := by
  have h : fmt.Sprintf other "" [x, y] = String.mk (fmt.extraArgs [x, y]) := by
    simp [fmt.Sprintf, fmt.doPrintf, fmt.finish]
  refine ⟨h, ?_⟩
  rw [h]
  exact ⟨_, rfl⟩

/-! ## The stored host (C13, C15) -/

/-- C13, as stated, fails: the template "/%s/%s" with city "Berlin" and key
"k1" resolves to the bare path "/Berlin/k1", which has no scheme, and
`ParseWeatherMetadata` accepts the mapping and stores that path as the host. -/
theorem C13_counterexample :
    hasScheme ("/Berlin/k1" : String).data = false ∧
    ∀ other : List Char → List String → Nat → List Char,
      ParseWeatherMetadata other
          ⟨mapOf [("cityName", "Berlin"), ("apiKey", "k1"), ("host", "/%s/%s"),
            ("preference", "Temp")], 3⟩ =
        .ok { thresholdValue := 0, host := "/Berlin/k1", cityName := "Berlin", apiKey := "k1",
              preference := "Temp" } := by
  refine ⟨by decide, fun other => ?_⟩
  have hs : fmt.Sprintf other "/%s/%s" ["Berlin", "k1"] = "/Berlin/k1" := by
    have := fmt.Sprintf_two_slots other "/" "/" "" "Berlin" "k1"
      (by decide) (by decide) (by decide)
    simpa using this
  have := ParseWeatherMetadata_of_valid other
    ⟨mapOf [("cityName", "Berlin"), ("apiKey", "k1"), ("host", "/%s/%s"),
      ("preference", "Temp")], 3⟩ 0 "/%s/%s" (by decide) (by decide) (by decide) (by decide)
    (by
      have e1 : mapIndex (mapOf [("cityName", "Berlin"), ("apiKey", "k1"), ("host", "/%s/%s"),
        ("preference", "Temp")]) "cityName" = "Berlin" := by decide
      have e2 : mapIndex (mapOf [("cityName", "Berlin"), ("apiKey", "k1"), ("host", "/%s/%s"),
        ("preference", "Temp")]) "apiKey" = "k1" := by decide
      simp only [e1, e2, hs]
      decide)
    (by decide)
  rw [this]
  have e1 : mapIndex (mapOf [("cityName", "Berlin"), ("apiKey", "k1"), ("host", "/%s/%s"),
    ("preference", "Temp")]) "cityName" = "Berlin" := by decide
  have e2 : mapIndex (mapOf [("cityName", "Berlin"), ("apiKey", "k1"), ("host", "/%s/%s"),
    ("preference", "Temp")]) "apiKey" = "k1" := by decide
  have e3 : mapIndex (mapOf [("cityName", "Berlin"), ("apiKey", "k1"), ("host", "/%s/%s"),
    ("preference", "Temp")]) "preference" = "Temp" := by decide
  simp only [e1, e2, e3, hs]

/-- C13, amended. When `ParseWeatherMetadata` succeeds, the stored host passes
`url.ParseRequestURI`: it begins with a scheme (an absolute URL, as in
"http://x/Berlin/k1"), or it begins with "/" (an absolute path), or it is "*".
A mapping that passes the checks before the host and whose template resolves to
a text of none of these forms, such as the relative path that "%s/%s" gives,
is rejected with the error for an invalid URL. -/
theorem C13_host_passes_validation (other : List Char → List String → Nat → List Char)
    (config : ScalerConfig) (m : weatherMetadata)
    (hok : ParseWeatherMetadata other config = .ok m) :
    url.ParseRequestURI m.host = .ok () ∧
    (hasScheme m.host.data = true ∨ m.host.data.head? = some '/' ∨ m.host = "*") ∧
    ∀ (cfg : ScalerConfig) (val : String), thresholdAcceptable cfg →
      mapIndex cfg.TriggerMetadata "cityName" ≠ "" →
      mapIndex cfg.TriggerMetadata "apiKey" ≠ "" →
      cfg.TriggerMetadata "host" = some val →
      hasScheme (fmt.Sprintf other val [mapIndex cfg.TriggerMetadata "cityName",
        mapIndex cfg.TriggerMetadata "apiKey"]).data = false →
      (fmt.Sprintf other val [mapIndex cfg.TriggerMetadata "cityName",
        mapIndex cfg.TriggerMetadata "apiKey"]).data.head? ≠ some '/' →
      fmt.Sprintf other val [mapIndex cfg.TriggerMetadata "cityName",
        mapIndex cfg.TriggerMetadata "apiKey"] ≠ "*" →
      ∃ err, ParseWeatherMetadata other cfg = .error (.invalidURL err) := by
  have hu := (ParseWeatherMetadata_ok other config m hok).2.2.2.2.2.2.1
  refine ⟨hu, ?_, ?_⟩
  · rcases url.ParseRequestURI_ok_form m.host hu with h | h | h
    · exact Or.inr (Or.inr h)
    · exact Or.inr (Or.inl h)
    · exact Or.inl h
  · intro cfg val hthr hc hk hh hscheme hslash hstar
    obtain ⟨t, ht⟩ := parseThreshold_of_acceptable cfg hthr
    obtain ⟨e, he⟩ := url.ParseRequestURI_error_of_form _ hstar hslash hscheme
    exact ⟨_, ParseWeatherMetadata_of_invalid_url other cfg t val _ ht hc hk hh he⟩

/-- C13, amended, on the mapping for Berlin with the template
"http://x/%s/%s", and on the template "%s/%s", which is rejected. -/
theorem C13_host_passes_validation_witness :
    url.ParseRequestURI "http://x/Berlin/k1" = .ok () ∧
    hasScheme ("http://x/Berlin/k1" : String).data = true ∧
    ∃ err, ParseWeatherMetadata (fun _ _ _ => [])
        ⟨mapOf [("cityName", "Berlin"), ("apiKey", "k1"), ("host", "%s/%s"),
          ("preference", "Temp")], 3⟩ = .error (.invalidURL err) :=
  ⟨(C13_host_passes_validation (fun _ _ _ => [])
      ⟨mapOf [("cityName", "Berlin"), ("apiKey", "k1"), ("host", "http://x/%s/%s"),
        ("preference", "Temp_max")], 3⟩
      { thresholdValue := 0, host := "http://x/Berlin/k1", cityName := "Berlin",
        apiKey := "k1", preference := "Temp_max" } (by decide)).1,
   by decide,
   (C13_host_passes_validation (fun _ _ _ => [])
      ⟨mapOf [("cityName", "Berlin"), ("apiKey", "k1"), ("host", "http://x/%s/%s"),
        ("preference", "Temp_max")], 3⟩
      { thresholdValue := 0, host := "http://x/Berlin/k1", cityName := "Berlin",
        apiKey := "k1", preference := "Temp_max" } (by decide)).2.2
      ⟨mapOf [("cityName", "Berlin"), ("apiKey", "k1"), ("host", "%s/%s"),
        ("preference", "Temp")], 3⟩ "%s/%s" (by exact trivial) (by decide) (by decide) rfl
      (by decide) (by decide) (by decide)⟩

/-- C15. A mapping with an acceptable threshold, a city name and an API key
that are not empty, and a host that is present with the empty string as its
value is rejected with the error for an invalid URL, not with the error for a
missing host; the error for a missing host is returned only when the key
`host` is absent. -/
theorem C15_empty_host (other : List Char → List String → Nat → List Char)
    (config : ScalerConfig) (hthr : thresholdAcceptable config)
    (hc : mapIndex config.TriggerMetadata "cityName" ≠ "")
    (hk : mapIndex config.TriggerMetadata "apiKey" ≠ "")
    (hh : config.TriggerMetadata "host" = some "") :
    (∃ err, ParseWeatherMetadata other config = .error (.invalidURL err)) ∧
    ParseWeatherMetadata other config ≠ .error .noHost ∧
    ∀ cfg : ScalerConfig, ParseWeatherMetadata other cfg = .error .noHost →
      cfg.TriggerMetadata "host" = none := by
  obtain ⟨t, ht⟩ := parseThreshold_of_acceptable config hthr
  obtain ⟨_, tl, htl⟩ := fmt.Sprintf_empty_format other
    (mapIndex config.TriggerMetadata "cityName") (mapIndex config.TriggerMetadata "apiKey")
  obtain ⟨e, he⟩ := url.ParseRequestURI_error_of_form
    (fmt.Sprintf other "" [mapIndex config.TriggerMetadata "cityName",
      mapIndex config.TriggerMetadata "apiKey"])
    (by
      intro h
      rw [h] at htl
      cases htl)
    (by
      rw [htl]
      intro h
      simp only [List.head?_cons, Option.some.injEq] at h
      revert h
      decide)
    (by
      rw [htl]
      rfl)
  have hr := ParseWeatherMetadata_of_invalid_url other config t "" _ ht hc hk hh he
  refine ⟨⟨_, hr⟩, ?_, fun cfg h => ParseWeatherMetadata_noHost other cfg h⟩
  rw [hr]
  intro h
  cases h

/-- C15, on the mapping for Berlin with an empty host. -/
theorem C15_empty_host_witness :
    ∃ err, ParseWeatherMetadata (fun _ _ _ => [])
        ⟨mapOf [("cityName", "Berlin"), ("apiKey", "k1"), ("host", ""),
          ("preference", "Temp")], 3⟩ = .error (.invalidURL err) :=
  (C15_empty_host (fun _ _ _ => [])
    ⟨mapOf [("cityName", "Berlin"), ("apiKey", "k1"), ("host", ""), ("preference", "Temp")], 3⟩
    (by exact trivial) (by decide) (by decide) rfl).1

/-! ## The rules of the validator, in order (C16) -/

/-- A threshold entry that passes the first step is acceptable. -/
theorem thresholdAcceptable_of_parseThreshold (config : ScalerConfig) (t : Int)
    (h : parseThreshold config = .ok t) : thresholdAcceptable config := by
  unfold parseThreshold at h
  unfold thresholdAcceptable
  cases hv : config.TriggerMetadata "thresholdValue" with
  | none => trivial
  | some val =>
    by_cases hne : val = ""
    · exact Or.inl hne
    · cases ha : strconv.Atoi val with
      | ok n => exact Or.inr ⟨n, ha⟩
      | error err => simp [hv, hne, ha] at h

/-- C16. `ParseWeatherMetadata` succeeds if and only if the five rules hold: the
threshold is absent, empty or an integer for `strconv.Atoi`; the city name is
not empty; the API key is not empty; the host is present and its substitution
with city name and API key passes `url.ParseRequestURI`; the preference is not
empty. Any preference that is not empty is accepted and returned, whether or
not it is one of "Temp_min", "Temp_max", "Temp". When rules are violated, the
error is that of the first violated rule in this order: threshold, city name,
API key, host (absent, or invalid URL), preference. -/
theorem C16_rules_in_order (other : List Char → List String → Nat → List Char)
    (config : ScalerConfig) :
    ((∃ m, ParseWeatherMetadata other config = .ok m) ↔ rulesHold other config) ∧
    (rulesHold other config → ∃ m, ParseWeatherMetadata other config = .ok m ∧
      m.preference = mapIndex config.TriggerMetadata "preference") ∧
    (¬ thresholdAcceptable config →
      ∃ err, ParseWeatherMetadata other config = .error (.thresholdValue err)) ∧
    (thresholdAcceptable config → mapIndex config.TriggerMetadata "cityName" = "" →
      ParseWeatherMetadata other config = .error .noCityName) ∧
    (thresholdAcceptable config → mapIndex config.TriggerMetadata "cityName" ≠ "" →
      mapIndex config.TriggerMetadata "apiKey" = "" →
      ParseWeatherMetadata other config = .error .noAPIKey) ∧
    (thresholdAcceptable config → mapIndex config.TriggerMetadata "cityName" ≠ "" →
      mapIndex config.TriggerMetadata "apiKey" ≠ "" →
      config.TriggerMetadata "host" = none →
      ParseWeatherMetadata other config = .error .noHost) ∧
    (thresholdAcceptable config → mapIndex config.TriggerMetadata "cityName" ≠ "" →
      mapIndex config.TriggerMetadata "apiKey" ≠ "" →
      ∀ val err, config.TriggerMetadata "host" = some val →
        url.ParseRequestURI (fmt.Sprintf other val [mapIndex config.TriggerMetadata "cityName",
          mapIndex config.TriggerMetadata "apiKey"]) = .error err →
        ParseWeatherMetadata other config = .error (.invalidURL err)) ∧
    (thresholdAcceptable config → mapIndex config.TriggerMetadata "cityName" ≠ "" →
      mapIndex config.TriggerMetadata "apiKey" ≠ "" →
      (∃ val, config.TriggerMetadata "host" = some val ∧
        url.ParseRequestURI (fmt.Sprintf other val [mapIndex config.TriggerMetadata "cityName",
          mapIndex config.TriggerMetadata "apiKey"]) = .ok ()) →
      mapIndex config.TriggerMetadata "preference" = "" →
      ParseWeatherMetadata other config = .error .noPreference) := by
  have hvalid : rulesHold other config → ∃ m, ParseWeatherMetadata other config = .ok m ∧
      m.preference = mapIndex config.TriggerMetadata "preference" := by
    rintro ⟨hthr, hc, hk, ⟨val, hh, hu⟩, hp⟩
    obtain ⟨t, ht⟩ := parseThreshold_of_acceptable config hthr
    exact ⟨_, ParseWeatherMetadata_of_valid other config t val ht hc hk hh hu hp, rfl⟩
  refine ⟨⟨?_, fun h => ?_⟩, hvalid, ?_, ?_, ?_, ?_, ?_, ?_⟩
  · rintro ⟨m, hm⟩
    obtain ⟨ht, hc, hc0, hk, hk0, ⟨val, hh, hhost⟩, hu, hp, hp0⟩ :=
      ParseWeatherMetadata_ok other config m hm
    refine ⟨thresholdAcceptable_of_parseThreshold config _ ht, hc ▸ hc0, hk ▸ hk0,
      ⟨val, hh, ?_⟩, hp ▸ hp0⟩
    rw [← hc, ← hk, ← hhost]
    exact hu
  · obtain ⟨m, hm, _⟩ := hvalid h
    exact ⟨m, hm⟩
  · intro hthr
    cases ht : parseThreshold config with
    | ok t => exact absurd (thresholdAcceptable_of_parseThreshold config t ht) hthr
    | error e =>
      obtain ⟨val, err, _, _, _, he⟩ := parseThreshold_error config e ht
      exact ⟨err, by rw [ParseWeatherMetadata_of_threshold_error other config e ht, he]⟩
  · intro hthr hc
    obtain ⟨t, ht⟩ := parseThreshold_of_acceptable config hthr
    exact ParseWeatherMetadata_of_no_city other config t ht hc
  · intro hthr hc hk
    obtain ⟨t, ht⟩ := parseThreshold_of_acceptable config hthr
    exact ParseWeatherMetadata_of_no_key other config t ht hc hk
  · intro hthr hc hk hh
    obtain ⟨t, ht⟩ := parseThreshold_of_acceptable config hthr
    exact ParseWeatherMetadata_of_no_host other config t ht hc hk hh
  · intro hthr hc hk val err hh hu
    obtain ⟨t, ht⟩ := parseThreshold_of_acceptable config hthr
    exact ParseWeatherMetadata_of_invalid_url other config t val err ht hc hk hh hu
  · intro hthr hc hk ⟨val, hh, hu⟩ hp
    obtain ⟨t, ht⟩ := parseThreshold_of_acceptable config hthr
    exact ParseWeatherMetadata_of_no_preference other config t val ht hc hk hh hu hp

/-- C16, on three mappings: one that satisfies the five rules with a preference
outside the three field names, one that violates the rules of the threshold
and of the city name, and one that violates the rules of the API key and of
the preference. -/
theorem C16_rules_in_order_witness :
    (∃ m, ParseWeatherMetadata (fun _ _ _ => [])
        ⟨mapOf [("cityName", "Berlin"), ("apiKey", "k1"), ("host", "http://x/%s/%s"),
          ("preference", "humidity")], 3⟩ = .ok m ∧ m.preference = "humidity") ∧
    (∃ err, ParseWeatherMetadata (fun _ _ _ => [])
        ⟨mapOf [("thresholdValue", "warm"), ("apiKey", "k1"), ("host", "http://x/%s/%s")], 3⟩ =
      .error (.thresholdValue err)) ∧
    ParseWeatherMetadata (fun _ _ _ => [])
        ⟨mapOf [("cityName", "Berlin"), ("host", "http://x/%s/%s")], 3⟩ = .error .noAPIKey :=
  ⟨(C16_rules_in_order (fun _ _ _ => [])
      ⟨mapOf [("cityName", "Berlin"), ("apiKey", "k1"), ("host", "http://x/%s/%s"),
        ("preference", "humidity")], 3⟩).2.1
      ⟨by exact trivial, by decide, by decide, ⟨"http://x/%s/%s", rfl, by decide⟩, by decide⟩,
   (C16_rules_in_order (fun _ _ _ => [])
      ⟨mapOf [("thresholdValue", "warm"), ("apiKey", "k1"), ("host", "http://x/%s/%s")], 3⟩).2.2.1
      (by
        intro h
        have e : strconv.Atoi "warm" = .error ⟨"Atoi", "warm", .ErrSyntax⟩ := by decide
        rcases h with h | ⟨n, hn⟩
        · revert h
          decide
        · rw [e] at hn
          cases hn),
   (C16_rules_in_order (fun _ _ _ => [])
      ⟨mapOf [("cityName", "Berlin"), ("host", "http://x/%s/%s")], 3⟩).2.2.2.2.1
      (by exact trivial) (by decide) (by decide)⟩

/-! ## Construction of the scaler (C17) -/

/-- The text of a validation error begins with four characters that tell its
failure kind, whatever the texts of the library errors. -/
theorem MetadataError.Error_prefix (numError : strconv.NumError → String)
    (urlError : url.Error → String) (e : MetadataError) :
    (e.Error numError urlError).data.take 4 =
      match e.kind with
      | .InvalidThreshold => ['E', 'r', 'r', 'o']
      | .MissingCityName => ['N', 'o', ' ', 'c']
      | .MissingAPIKey => ['N', 'o', ' ', 'A']
      | .MissingHost => ['N', 'o', ' ', 'h']
      | .InvalidHostURL => ['I', 'n', 'v', 'a']
      | .MissingPreference => ['N', 'o', ' ', 'p'] := by
  cases e <;> rfl

/-- Validation errors of different failure kinds have different texts. -/
theorem MetadataError.Error_ne_of_kind_ne (numError : strconv.NumError → String)
    (urlError : url.Error → String) (e1 e2 : MetadataError) (h : e1.kind ≠ e2.kind) :
    e1.Error numError urlError ≠ e2.Error numError urlError := by
  intro heq
  have h1 := MetadataError.Error_prefix numError urlError e1
  have h2 := MetadataError.Error_prefix numError urlError e2
  rw [heq, h2] at h1
  revert h h1
  cases e1.kind <;> cases e2.kind <;> decide

/-- C17. `NewWeatherScaler` returns an error and no scaler exactly when
`ParseWeatherMetadata` fails on the same configuration, the error wrapping that
of `ParseWeatherMetadata`; otherwise it returns a scaler that holds exactly the
configuration `ParseWeatherMetadata` returns (with the client built from the
global timeout). The text of the wrapped error is "Error parsing weather
metadata: " followed by the text of the underlying error, so errors of
different failure kinds keep different texts. -/
theorem C17_new_weather_scaler (other : List Char → List String → Nat → List Char)
    (CreateHTTPClient : Nat → Client) (config : ScalerConfig)
    (numError : strconv.NumError → String) (urlError : url.Error → String) :
    (∀ e, ParseWeatherMetadata other config = .error e →
      NewWeatherScaler other CreateHTTPClient config = .error (.parsingMetadata e)) ∧
    (∀ m, ParseWeatherMetadata other config = .ok m →
      NewWeatherScaler other CreateHTTPClient config =
        .ok { metadata := m, httpClient := CreateHTTPClient config.GlobalHTTPTimeout }) ∧
    ((∃ e, NewWeatherScaler other CreateHTTPClient config = .error e) ↔
      ∃ e, ParseWeatherMetadata other config = .error e) ∧
    ((∃ s, NewWeatherScaler other CreateHTTPClient config = .ok s) ↔
      ∃ m, ParseWeatherMetadata other config = .ok m) ∧
    (∀ e, (ScalerError.parsingMetadata e).Error numError urlError =
      "Error parsing weather metadata: " ++ e.Error numError urlError) ∧
    (∀ e1 e2 : MetadataError, e1.kind ≠ e2.kind →
      (ScalerError.parsingMetadata e1).Error numError urlError ≠
        (ScalerError.parsingMetadata e2).Error numError urlError) := by
  refine ⟨?_, ?_, ?_, ?_, fun _ => rfl, ?_⟩
  · intro e h
    simp [NewWeatherScaler, h]
  · intro m h
    simp [NewWeatherScaler, h]
  · cases h : ParseWeatherMetadata other config with
    | error e => simp [NewWeatherScaler, h]
    | ok m => simp [NewWeatherScaler, h]
  · cases h : ParseWeatherMetadata other config with
    | error e => simp [NewWeatherScaler, h]
    | ok m => simp [NewWeatherScaler, h]
  · intro e1 e2 hk heq
    apply MetadataError.Error_ne_of_kind_ne numError urlError e1 e2 hk
    have hd := congrArg String.data heq
    simp only [ScalerError.Error, String.data_append] at hd
    exact String.ext (List.append_cancel_left hd)

/-- C17, on a mapping without city name and on the mapping for Berlin. -/
theorem C17_new_weather_scaler_witness :
    NewWeatherScaler (fun _ _ _ => []) (fun _ => clientReturning (none, none))
        ⟨mapOf [("apiKey", "k1"), ("host", "http://x/%s/%s"), ("preference", "Temp")], 3⟩ =
      .error (.parsingMetadata .noCityName) ∧
    (ScalerError.parsingMetadata .noCityName).Error (fun _ => "") (fun _ => "") =
      "Error parsing weather metadata: No city name given" ∧
    NewWeatherScaler (fun _ _ _ => []) (fun _ => clientReturning (none, none))
        ⟨mapOf [("cityName", "Berlin"), ("apiKey", "k1"), ("host", "http://x/%s/%s"),
          ("preference", "Temp")], 3⟩ =
      .ok { metadata := { thresholdValue := 0, host := "http://x/Berlin/k1",
                          cityName := "Berlin", apiKey := "k1", preference := "Temp" },
            httpClient := clientReturning (none, none) } :=
  ⟨(C17_new_weather_scaler (fun _ _ _ => []) (fun _ => clientReturning (none, none))
      ⟨mapOf [("apiKey", "k1"), ("host", "http://x/%s/%s"), ("preference", "Temp")], 3⟩
      (fun _ => "") (fun _ => "")).1 .noCityName (by decide),
   (C17_new_weather_scaler (fun _ _ _ => []) (fun _ => clientReturning (none, none))
      ⟨mapOf [("apiKey", "k1"), ("host", "http://x/%s/%s"), ("preference", "Temp")], 3⟩
      (fun _ => "") (fun _ => "")).2.2.2.2.1 .noCityName,
   (C17_new_weather_scaler (fun _ _ _ => []) (fun _ => clientReturning (none, none))
      ⟨mapOf [("cityName", "Berlin"), ("apiKey", "k1"), ("host", "http://x/%s/%s"),
        ("preference", "Temp")], 3⟩ (fun _ => "") (fun _ => "")).2.1 _ (by decide)⟩

end WeatherScaler
